import Mathlib

/-!
Shallow embedding of the kiro2api token-pool manager (Go packages
`auth` / `kiro2api`): the token cache, the rotation-order selection
algorithm (`getBestToken` / `selectBestTokenUnlocked`), per-index
refresh, CSV credential loading and the service facade's config
assembly.

Modelling conventions:
- `time.Time` values and durations become `Int` (an instant on an
  abstract clock); `t1.After(t2)` becomes `t2 < t1`, `time.Since(t)`
  becomes `now - t`.  A single `now` stands for all the closely spaced
  `time.Now()` calls inside one locked operation.
- `float64` becomes `Rat`: the operations used (addition, subtraction,
  comparison with 0 and decrement by 1) are exact in both.
- The cache key for config index `i` is
  `fmt.Sprintf(config.TokenCacheKeyFormat, i)`; the format constant
  lives outside the sources, so keys are modelled by the defining index
  itself (`cacheKey i = i`), which preserves exactly the property the
  code relies on: keys are derived deterministically and injectively
  from the index, identically at order-generation and refresh sites.
- The Go `map[string]*CachedToken` becomes an association list
  `List (Nat × CachedToken)`; pointer mutation of a selected entry
  becomes re-insertion at its key.  Go's unspecified map iteration
  order (used only in the no-rotation-order fallback) becomes list
  order.
- The two external network collaborators (`refreshSingleToken`, the
  usage-limits checker) and the clock are a `RefreshEnv` of oracles.
- Fallible Go functions returning `(T, error)` become `Except String T`;
  an error result carries no state, mirroring that the source performs
  no cache write before any of its error returns.
-/

/-- `types.TokenInfo`: the fields read by this package. -/
structure TokenInfo where
  AccessToken : String
  ExpiresAt : Int
  deriving Repr, DecidableEq

/-- `types.FreeTrialInfo`: the fields read by `CalculateAvailableCount`. -/
structure FreeTrialInfo where
  FreeTrialStatus : String
  UsageLimitWithPrecision : Rat
  CurrentUsageWithPrecision : Rat
  deriving Repr, DecidableEq

/-- `types.UsageBreakdown`: the fields read by `CalculateAvailableCount`. -/
structure UsageBreakdown where
  ResourceType : String
  FreeTrialData : Option FreeTrialInfo
  UsageLimitWithPrecision : Rat
  CurrentUsageWithPrecision : Rat
  deriving Repr, DecidableEq

/-- `types.UsageLimits`. -/
structure UsageLimits where
  UsageBreakdownList : List UsageBreakdown
  deriving Repr, DecidableEq

/-- `auth.AuthConfig`. -/
structure AuthConfig where
  AuthType : String
  RefreshToken : String
  ClientID : String
  ClientSecret : String
  Disabled : Bool
  deriving Repr, DecidableEq

/-- `auth.AuthMethodSocial`. -/
def AuthMethodSocial : String := "Social"

/-- `auth.AuthMethodIdC`. -/
def AuthMethodIdC : String := "IdC"

/-- `auth.CachedToken`. -/
structure CachedToken where
  Token : TokenInfo
  UsageInfo : Option UsageLimits
  CachedAt : Int
  LastUsed : Int
  Available : Rat
  deriving Repr, DecidableEq

/-- `auth.TokenManager` together with the `SimpleTokenCache` it owns
(`tokens`, `ttl` are the cache's fields). -/
structure TokenManager where
  tokens : List (Nat × CachedToken)
  ttl : Int
  configs : List AuthConfig
  configOrder : List Nat
  currentIndex : Nat
  exhausted : List Nat
  lastRefresh : Int
  deriving Repr, DecidableEq

/-- The external collaborators and the clock: `refreshSingleToken`
(the network token exchange) and `UsageLimitsChecker.CheckUsageLimits`
are outside the modelled sources. -/
structure RefreshEnv where
  now : Int
  refreshSingleToken : AuthConfig → Except String TokenInfo
  CheckUsageLimits : TokenInfo → Except String UsageLimits

/-- Map read `tm.cache.tokens[key]`. -/
def lookupToken (ts : List (Nat × CachedToken)) (k : Nat) : Option CachedToken :=
  match ts.find? (fun p => p.1 == k) with
  | some p => some p.2
  | none => none

/-- Map write `tm.cache.tokens[key] = v`. -/
def insertToken (ts : List (Nat × CachedToken)) (k : Nat) (v : CachedToken) :
    List (Nat × CachedToken) :=
  if (ts.find? (fun p => p.1 == k)).isSome then
    ts.map (fun p => if p.1 == k then (k, v) else p)
  else
    ts ++ [(k, v)]

/-- Set insert `tm.exhausted[key] = true`. -/
def insertKey (ks : List Nat) (k : Nat) : List Nat :=
  if k ∈ ks then ks else ks ++ [k]

/-- `CachedToken.IsUsable`: not expired (`time.Now().After(ExpiresAt)`
is false) and `Available > 0`. -/
def CachedToken.IsUsable (ct : CachedToken) (now : Int) : Bool :=
  if ct.Token.ExpiresAt < now then false
  else decide (0 < ct.Available)

/-- The loop body of `CalculateAvailableCount` over
`usage.UsageBreakdownList`. -/
def creditFromBreakdowns : List UsageBreakdown → Rat
  | [] => 0
  | b :: rest =>
    if b.ResourceType == "CREDIT" then
      let freeTrialAvailable : Rat :=
        match b.FreeTrialData with
        | some info =>
          if info.FreeTrialStatus == "ACTIVE" then
            info.UsageLimitWithPrecision - info.CurrentUsageWithPrecision
          else 0
        | none => 0
      let totalAvailable := freeTrialAvailable +
        (b.UsageLimitWithPrecision - b.CurrentUsageWithPrecision)
      if totalAvailable < 0 then 0 else totalAvailable
    else creditFromBreakdowns rest

/-- `auth.CalculateAvailableCount`. -/
def CalculateAvailableCount (usage : UsageLimits) : Rat :=
  creditFromBreakdowns usage.UsageBreakdownList

/-- Cache key for config index `i` (see the header note on
`config.TokenCacheKeyFormat`). -/
def cacheKey (i : Nat) : Nat := i

/-- `auth.generateConfigOrder`. -/
def generateConfigOrder (configs : List AuthConfig) : List Nat :=
  (List.range configs.length).map cacheKey

/-- `auth.NewTokenManager` (the cache TTL constant `config.TokenCacheTTL`
lives outside the sources and is passed in). -/
def NewTokenManager (ttl : Int) (configs : List AuthConfig) : TokenManager :=
  { tokens := []
    ttl := ttl
    configs := configs
    configOrder := generateConfigOrder configs
    currentIndex := 0
    exhausted := []
    lastRefresh := 0 }

/-- `auth.TokenManager.refreshSingleTokenByIndex`.  The source checks
`index >= len(tm.configs)` and then indexes; with a `Nat` index the two
collapse into the `none` case of `tm.configs[index]?`. -/
def refreshSingleTokenByIndex (env : RefreshEnv) (tm : TokenManager) (index : Nat) :
    Except String TokenManager :=
  match tm.configs[index]? with
  | none => Except.error "索引超出范围"
  | some cfg =>
    if cfg.Disabled then Except.error "token已禁用"
    else
      match env.refreshSingleToken cfg with
      | Except.error e => Except.error ("刷新token失败: " ++ e)
      | Except.ok token =>
        match env.CheckUsageLimits token with
        | Except.ok usage =>
          let entry : CachedToken :=
            { Token := token
              UsageInfo := some usage
              CachedAt := env.now
              LastUsed := 0
              Available := CalculateAvailableCount usage }
          Except.ok { tm with tokens := insertToken tm.tokens (cacheKey index) entry }
        | Except.error _ =>
          let entry : CachedToken :=
            { Token := token
              UsageInfo := none
              CachedAt := env.now
              LastUsed := 0
              Available := 0 }
          Except.ok { tm with tokens := insertToken tm.tokens (cacheKey index) entry }

/-- The cache entry a successful `refreshSingleTokenByIndex` writes for a
given (non-disabled) config, `none` when the token-refresh call fails:
a restatement of the write site used to characterize refresh results. -/
def refreshedEntry (env : RefreshEnv) (cfg : AuthConfig) : Option CachedToken :=
  match env.refreshSingleToken cfg with
  | Except.error _ => none
  | Except.ok token =>
    match env.CheckUsageLimits token with
    | Except.ok usage =>
      some { Token := token
             UsageInfo := some usage
             CachedAt := env.now
             LastUsed := 0
             Available := CalculateAvailableCount usage }
    | Except.error _ =>
      some { Token := token
             UsageInfo := none
             CachedAt := env.now
             LastUsed := 0
             Available := 0 }

/-- What one refresh attempt for a config leaves in the cache slot:
`none` when the attempt errors (disabled config or failed exchange). -/
def refreshOutcome (env : RefreshEnv) (cfg : AuthConfig) : Option CachedToken :=
  if cfg.Disabled then none else refreshedEntry env cfg

/-- One iteration of the `selectBestTokenUnlocked` loop (source lines
107-154): either a selected `(key, entry)` pair (the Go code returns the
entry pointer; the key names its cache slot) with the possibly
refresh-updated manager, or `none` with the key marked exhausted and the
cursor advanced.  In the stale-entry branch, a successful refresh always
re-populates the slot of `cacheKey currentIndex`; the `none` fallback
there is unreachable whenever `configOrder` is index-generated.
`advanceCursor` is the failure bookkeeping shared by all unsuccessful
iteration paths (source lines 115-117, 135-137 and 148-150): mark the
attempted key exhausted and advance the cursor modulo the
rotation-order length. -/
def advanceCursor (tm : TokenManager) (currentKey : Nat) : TokenManager :=
  { tm with exhausted := insertKey tm.exhausted currentKey
            currentIndex := (tm.currentIndex + 1) % tm.configOrder.length }

def selectStep (env : RefreshEnv) (tm : TokenManager) :
    Option (Nat × CachedToken) × TokenManager :=
  let currentKey := tm.configOrder.getD tm.currentIndex 0
  let advance : TokenManager → TokenManager := fun t => advanceCursor t currentKey
  match lookupToken tm.tokens currentKey with
  | some cached =>
    if tm.ttl < env.now - cached.CachedAt then
      match refreshSingleTokenByIndex env tm tm.currentIndex with
      | Except.error _ => (none, advance tm)
      | Except.ok tm1 =>
        match lookupToken tm1.tokens currentKey with
        | some cached1 =>
          if cached1.IsUsable env.now then (some (currentKey, cached1), tm1)
          else (none, advance tm1)
        | none => (none, advance tm1)
    else
      if cached.IsUsable env.now then (some (currentKey, cached), tm)
      else (none, advance tm)
  | none =>
    match refreshSingleTokenByIndex env tm tm.currentIndex with
    | Except.error _ => (none, advance tm)
    | Except.ok tm1 =>
      match lookupToken tm1.tokens currentKey with
      | some cached1 =>
        if cached1.IsUsable env.now then (some (currentKey, cached1), tm1)
        else (none, advance tm1)
      | none => (none, advance tm1)

/-- The bounded `attempts` loop of `selectBestTokenUnlocked`, with fuel
`len(tm.configOrder)` at the call site.  The third component records the
key attempted at each iteration (the source logs exactly these keys). -/
def selectLoop (env : RefreshEnv) (tm : TokenManager) :
    Nat → Option (Nat × CachedToken) × TokenManager × List Nat
  | 0 => (none, tm, [])
  | fuel + 1 =>
    let currentKey := tm.configOrder.getD tm.currentIndex 0
    match selectStep env tm with
    | (some sel, tm1) => (some sel, tm1, [currentKey])
    | (none, tm1) =>
      let r := selectLoop env tm1 fuel
      (r.1, r.2.1, currentKey :: r.2.2)

/-- `auth.TokenManager.selectBestTokenUnlocked`. -/
def selectBestTokenUnlocked (env : RefreshEnv) (tm : TokenManager) :
    Option (Nat × CachedToken) × TokenManager × List Nat :=
  if tm.configOrder.length = 0 then
    match tm.tokens.find? (fun p =>
        decide (env.now - p.2.CachedAt ≤ tm.ttl) && p.2.IsUsable env.now) with
    | some p => (some (p.1, p.2), tm, [])
    | none => (none, tm, [])
  else
    selectLoop env tm tm.configOrder.length

/-- `auth.TokenManager.getBestToken`: select, then update `LastUsed` and
decrement `Available` if positive through the selected entry's pointer
(modelled as re-insertion at the selected key). -/
def getBestToken (env : RefreshEnv) (tm : TokenManager) :
    Except String TokenInfo × TokenManager :=
  match selectBestTokenUnlocked env tm with
  | (none, tm1, _) => (Except.error "没有可用的token", tm1)
  | (some (key, best), tm1, _) =>
    let best1 := { best with
      LastUsed := env.now
      Available := if 0 < best.Available then best.Available - 1 else best.Available }
    (Except.ok best.Token, { tm1 with tokens := insertToken tm1.tokens key best1 })

/-- The loop of `refreshCacheUnlocked` over config indices: a per-index
failure is logged and skipped, never propagated. -/
def refreshIndices (env : RefreshEnv) : TokenManager → List Nat → TokenManager
  | tm, [] => tm
  | tm, i :: rest =>
    match refreshSingleTokenByIndex env tm i with
    | Except.ok tm1 => refreshIndices env tm1 rest
    | Except.error _ => refreshIndices env tm rest

/-- `auth.TokenManager.refreshCacheUnlocked` (always returns nil in the
source, hence total here). -/
def refreshCacheUnlocked (env : RefreshEnv) (tm : TokenManager) : TokenManager :=
  let tm1 := refreshIndices env tm (List.range tm.configs.length)
  { tm1 with lastRefresh := env.now }

/-- `auth.processConfigs`. -/
def processConfigs : List AuthConfig → List AuthConfig
  | [] => []
  | cfg :: rest =>
    if cfg.RefreshToken == "" then processConfigs rest
    else
      let cfg := if cfg.AuthType == "" then { cfg with AuthType := AuthMethodSocial } else cfg
      if cfg.AuthType == AuthMethodIdC && (cfg.ClientID == "" || cfg.ClientSecret == "") then
        processConfigs rest
      else if cfg.Disabled then processConfigs rest
      else cfg :: processConfigs rest

/-- Go strings.TrimSpace, modelled on the character list so that it is
kernel-evaluable (String.trim is byte-position-based well-founded
recursion, which concrete evaluation cannot unfold). -/
def trimSpace (s : String) : String :=
  ⟨((s.data.dropWhile Char.isWhitespace).reverse.dropWhile Char.isWhitespace).reverse⟩

/-- Go strings.ToLower over the character list (the loader only
compares against the ASCII word "true"). -/
def toLowerStr (s : String) : String :=
  ⟨s.data.map Char.toLower⟩

/-- The row loop of `LoadAccountsFromCSV` over `records[1:]`: rows with
fewer than 4 columns are skipped (with a warning log), rows whose first
column is not case-insensitively "true" are skipped, the rest become
`IdC` configs from the trimmed columns. -/
def loadAccountRows : List (List String) → List AuthConfig
  | [] => []
  | record :: rest =>
    if record.length < 4 then loadAccountRows rest
    else
      let enabled := toLowerStr (trimSpace (record.getD 0 "")) == "true"
      if enabled then
        { AuthType := AuthMethodIdC
          RefreshToken := trimSpace (record.getD 1 "")
          ClientID := trimSpace (record.getD 2 "")
          ClientSecret := trimSpace (record.getD 3 "")
          Disabled := false } :: loadAccountRows rest
      else loadAccountRows rest

/-- `auth.LoadAccountsFromCSV`, from the records the CSV reader parsed
(file opening and CSV parsing are external I/O): fewer than two records
is an error, otherwise the row loop over everything after the header. -/
def LoadAccountsFromCSV (records : List (List String)) : Except String (List AuthConfig) :=
  if records.length < 2 then Except.error "CSV文件为空或缺少数据行"
  else Except.ok (loadAccountRows records.tail)

/-- `auth.TokenManager.AddAccountsFromCSV`: load, append, regenerate the
rotation order, full refresh (which never returns an error). -/
def AddAccountsFromCSV (env : RefreshEnv) (tm : TokenManager)
    (records : List (List String)) : Except String TokenManager :=
  match LoadAccountsFromCSV records with
  | Except.error e => Except.error e
  | Except.ok newConfigs =>
    let tm1 := { tm with configs := tm.configs ++ newConfigs }
    let tm2 := { tm1 with configOrder := generateConfigOrder tm1.configs }
    Except.ok (refreshCacheUnlocked env tm2)

/-- The config-assembly logic of `auth.NewAuthService`: the outcome of
`loadConfigs` (env/JSON primary source, external I/O) is a parameter,
the CSV records of `accounts.csv` are the parsed input.  Returns the
config list handed to `NewTokenManager`. -/
def NewAuthServiceConfigs (primary : Except String (List AuthConfig))
    (csvRecords : List (List String)) : Except String (List AuthConfig) :=
  match primary with
  | Except.error e =>
    match LoadAccountsFromCSV csvRecords with
    | Except.ok csvConfigs =>
      if 0 < csvConfigs.length then
        if csvConfigs.length = 0 then Except.error "未找到有效的token配置"
        else Except.ok csvConfigs
      else Except.error ("加载配置失败: " ++ e)
    | Except.error _ => Except.error ("加载配置失败: " ++ e)
  | Except.ok cs =>
    let configs :=
      match LoadAccountsFromCSV csvRecords with
      | Except.ok csvConfigs => cs ++ csvConfigs
      | Except.error _ => cs
    if configs.length = 0 then Except.error "未找到有效的token配置"
    else Except.ok configs

/-! ### Basic lemmas about the cache association list and key set -/

theorem lookupToken_nil (k : Nat) : lookupToken [] k = none := rfl

theorem lookupToken_cons (p : Nat × CachedToken) (ts : List (Nat × CachedToken))
    (k : Nat) :
    lookupToken (p :: ts) k = if p.1 == k then some p.2 else lookupToken ts k := by
  by_cases hp : p.1 == k
  · simp [lookupToken, List.find?_cons, hp]
  · simp [lookupToken, List.find?_cons, hp]

theorem findKey_isSome (ts : List (Nat × CachedToken)) (k : Nat) :
    (ts.find? (fun p => p.1 == k)).isSome = (lookupToken ts k).isSome := by
  unfold lookupToken
  cases ts.find? (fun p => p.1 == k) <;> simp

theorem lookupToken_append_single (ts : List (Nat × CachedToken)) (k k' : Nat)
    (v : CachedToken) :
    lookupToken (ts ++ [(k, v)]) k' =
      match lookupToken ts k' with
      | some w => some w
      | none => if k == k' then some v else none := by
  induction ts with
  | nil => simp [lookupToken_cons, lookupToken_nil]
  | cons p rest ih =>
    rw [List.cons_append, lookupToken_cons, lookupToken_cons]
    by_cases hp : p.1 == k'
    · simp [hp]
    · simp [hp, ih]

theorem lookupToken_map_replace_self (ts : List (Nat × CachedToken)) (k : Nat)
    (v : CachedToken) (h : lookupToken ts k ≠ none) :
    lookupToken (ts.map (fun p => if p.1 == k then (k, v) else p)) k = some v := by
  induction ts with
  | nil => simp [lookupToken_nil] at h
  | cons p rest ih =>
    rw [List.map_cons]
    by_cases hp : p.1 == k
    · rw [if_pos hp, lookupToken_cons]
      simp
    · rw [if_neg hp, lookupToken_cons, if_neg hp]
      rw [lookupToken_cons, if_neg hp] at h
      exact ih h

theorem lookupToken_map_replace_ne (ts : List (Nat × CachedToken)) (k k' : Nat)
    (v : CachedToken) (hne : k' ≠ k) :
    lookupToken (ts.map (fun p => if p.1 == k then (k, v) else p)) k' =
      lookupToken ts k' := by
  induction ts with
  | nil => simp [lookupToken_nil]
  | cons p rest ih =>
    rw [List.map_cons]
    by_cases hp : p.1 == k
    · have hpk : p.1 = k := by simpa using hp
      have h1 : (k == k') = false := by
        simp only [beq_eq_false_iff_ne, ne_eq]
        exact fun hh => hne hh.symm
      have h2 : (p.1 == k') = false := by
        simp only [beq_eq_false_iff_ne, ne_eq, hpk]
        exact fun hh => hne hh.symm
      rw [if_pos hp, lookupToken_cons, lookupToken_cons]
      simp only [h1, h2, Bool.false_eq_true, if_false]
      exact ih
    · rw [if_neg hp, lookupToken_cons, lookupToken_cons, ih]

theorem lookupToken_insertToken_self (ts : List (Nat × CachedToken)) (k : Nat)
    (v : CachedToken) : lookupToken (insertToken ts k v) k = some v := by
  unfold insertToken
  rw [findKey_isSome]
  by_cases h : (lookupToken ts k).isSome
  · simp only [h, if_true]
    exact lookupToken_map_replace_self ts k v (by
      intro hn
      rw [hn] at h
      simp at h)
  · simp only [h, Bool.false_eq_true, if_false]
    rw [lookupToken_append_single]
    have hn : lookupToken ts k = none := by
      cases hl : lookupToken ts k
      · rfl
      · rw [hl] at h
        simp at h
    rw [hn]
    simp

theorem lookupToken_insertToken_ne (ts : List (Nat × CachedToken)) (k k' : Nat)
    (v : CachedToken) (hne : k' ≠ k) :
    lookupToken (insertToken ts k v) k' = lookupToken ts k' := by
  unfold insertToken
  rw [findKey_isSome]
  by_cases h : (lookupToken ts k).isSome
  · simp only [h, if_true]
    exact lookupToken_map_replace_ne ts k k' v hne
  · simp only [h, Bool.false_eq_true, if_false]
    rw [lookupToken_append_single]
    have h1 : (k == k') = false := by
      simp only [beq_eq_false_iff_ne, ne_eq]
      exact fun hh => hne hh.symm
    cases hl : lookupToken ts k'
    · simp [h1]
    · simp

theorem mem_insertKey (ks : List Nat) (k x : Nat) :
    x ∈ insertKey ks k ↔ x ∈ ks ∨ x = k := by
  unfold insertKey
  by_cases h : k ∈ ks
  · simp only [h, if_true]
    constructor
    · exact fun hx => Or.inl hx
    · rintro (hx | rfl)
      · exact hx
      · exact h
  · simp [h]

/-! ### C3: usability predicate -/

/-- C3 (corrected): `IsUsable` returns true iff the current time is not
after `ExpiresAt` — that is, `now ≤ ExpiresAt`, since `time.Now().After`
is a strict comparison — and `Available > 0`; no field other than
`ExpiresAt` and `Available` affects the result.  At the instant
`now = ExpiresAt` it therefore still returns true, which is where the
original claim's strict-inequality reading fails. -/
theorem C3_isUsable_iff (ct : CachedToken) (now : Int) :
    ct.IsUsable now = true ↔ (now ≤ ct.Token.ExpiresAt ∧ 0 < ct.Available) := by
  unfold CachedToken.IsUsable
  by_cases h : ct.Token.ExpiresAt < now
  · rw [if_pos h]
    simp only [Bool.false_eq_true, false_iff]
    rintro ⟨h1, -⟩
    omega
  · rw [if_neg h]
    simp only [decide_eq_true_eq]
    constructor
    · intro ha
      exact ⟨by omega, ha⟩
    · rintro ⟨-, ha⟩
      exact ha

/-- C3 counterexample: with `ExpiresAt = 100`, `Available = 1` and the
current instant exactly 100, `IsUsable` returns true, while the claim
says it returns false at the instant now equals `expiresAt`. -/
theorem C3_counterexample :
    CachedToken.IsUsable
      { Token := { AccessToken := "tok", ExpiresAt := 100 }
        UsageInfo := none
        CachedAt := 0
        LastUsed := 0
        Available := 1 } 100 = true := by
  decide

/-! ### C7: the availability model -/

theorem creditFromBreakdowns_nonneg (l : List UsageBreakdown) :
    0 ≤ creditFromBreakdowns l := by
  induction l with
  | nil => simp [creditFromBreakdowns]
  | cons b rest ih =>
    unfold creditFromBreakdowns
    by_cases hb : b.ResourceType == "CREDIT"
    · rw [if_pos hb]
      dsimp only
      split
      · exact le_refl 0
      · rename_i h
        exact not_lt.mp h
    · rw [if_neg hb]
      exact ih

theorem creditFromBreakdowns_no_credit (l : List UsageBreakdown)
    (h : ∀ b ∈ l, b.ResourceType ≠ "CREDIT") : creditFromBreakdowns l = 0 := by
  induction l with
  | nil => rfl
  | cons b rest ih =>
    unfold creditFromBreakdowns
    have hb : ¬(b.ResourceType == "CREDIT") = true := by
      simp only [beq_iff_eq]
      exact h b (List.mem_cons_self b rest)
    rw [if_neg hb]
    exact ih (fun x hx => h x (List.mem_cons_of_mem b hx))

/-- Modelled from the spec: the per-breakdown credit formula the claim
states — the free-trial allowance counted only when its status is
ACTIVE, plus the base allowance, clamped to 0 when the total is
negative.  Compared against `CalculateAvailableCount` in C7. -/
def specCreditAvailable (b : UsageBreakdown) : Rat :=
  let freeTrial : Rat :=
    match b.FreeTrialData with
    | some info =>
      if info.FreeTrialStatus == "ACTIVE" then
        info.UsageLimitWithPrecision - info.CurrentUsageWithPrecision
      else 0
    | none => 0
  let total := freeTrial + (b.UsageLimitWithPrecision - b.CurrentUsageWithPrecision)
  if total < 0 then 0 else total

theorem creditFromBreakdowns_first (pre : List UsageBreakdown)
    (b : UsageBreakdown) (post : List UsageBreakdown)
    (hpre : ∀ x ∈ pre, x.ResourceType ≠ "CREDIT")
    (hb : b.ResourceType = "CREDIT") :
    creditFromBreakdowns (pre ++ b :: post) = specCreditAvailable b := by
  induction pre with
  | nil =>
    rw [List.nil_append]
    unfold creditFromBreakdowns specCreditAvailable
    rw [if_pos (by simpa using hb)]
  | cons x pre ih =>
    rw [List.cons_append]
    unfold creditFromBreakdowns
    have hx : ¬(x.ResourceType == "CREDIT") = true := by
      simp only [beq_iff_eq]
      exact hpre x (List.mem_cons_self x pre)
    rw [if_neg hx]
    exact ih (fun y hy => hpre y (List.mem_cons_of_mem x hy))

/-- C7: `CalculateAvailableCount` is a pure function of the usage
snapshot (it is a mathematical function of its argument): for the first
breakdown whose resource type is "CREDIT" it returns the free-trial
allowance (counted only when ACTIVE) plus the base allowance, clamped to
0 when negative; it returns 0 when no CREDIT breakdown exists; and the
result is always ≥ 0. -/
theorem C7_calculateAvailableCount_spec (usage : UsageLimits) :
    0 ≤ CalculateAvailableCount usage
    ∧ ((∀ b ∈ usage.UsageBreakdownList, b.ResourceType ≠ "CREDIT") →
        CalculateAvailableCount usage = 0)
    ∧ (∀ pre b post, usage.UsageBreakdownList = pre ++ b :: post →
        (∀ x ∈ pre, x.ResourceType ≠ "CREDIT") → b.ResourceType = "CREDIT" →
        CalculateAvailableCount usage = specCreditAvailable b) := by
  refine ⟨creditFromBreakdowns_nonneg _, fun h => creditFromBreakdowns_no_credit _ h, ?_⟩
  intro pre b post hsplit hpre hb
  unfold CalculateAvailableCount
  rw [hsplit]
  exact creditFromBreakdowns_first pre b post hpre hb

/-- C7 witness: a snapshot with a single CREDIT breakdown (no free
trial, base limit 5, usage 2) yields 3. -/
theorem C7_witness :
    CalculateAvailableCount
      { UsageBreakdownList := [{ ResourceType := "CREDIT"
                                 FreeTrialData := none
                                 UsageLimitWithPrecision := 5
                                 CurrentUsageWithPrecision := 2 }] } = 3 := by
  have h := (C7_calculateAvailableCount_spec
      { UsageBreakdownList := [{ ResourceType := "CREDIT"
                                 FreeTrialData := none
                                 UsageLimitWithPrecision := 5
                                 CurrentUsageWithPrecision := 2 }] }).2.2
      [] { ResourceType := "CREDIT"
           FreeTrialData := none
           UsageLimitWithPrecision := 5
           CurrentUsageWithPrecision := 2 } [] rfl (by simp) rfl
  rw [h]
  norm_num [specCreditAvailable]

/-! ### C10: short CSV files are a load error -/

/-- C10: whenever the parsed CSV file has fewer than two records —
including a file of only the header row — `LoadAccountsFromCSV` returns
an error (so never an empty credential list), and consequently
`NewAuthService`'s config assembly fails outright when the primary
env/JSON source has failed: the short CSV cannot become the sole
credential source. -/
theorem C10_short_csv_errors (records : List (List String))
    (h : records.length < 2) :
    LoadAccountsFromCSV records = Except.error "CSV文件为空或缺少数据行"
    ∧ ∀ e, NewAuthServiceConfigs (Except.error e) records =
        Except.error ("加载配置失败: " ++ e) := by
  constructor
  · unfold LoadAccountsFromCSV
    rw [if_pos h]
  · intro e
    unfold NewAuthServiceConfigs LoadAccountsFromCSV
    rw [if_pos h]

/-- C10 witness: the header-only file `[["enabled"]]`. -/
theorem C10_witness :
    ([["enabled"]] : List (List String)).length < 2
    ∧ LoadAccountsFromCSV [["enabled"]] = Except.error "CSV文件为空或缺少数据行"
    ∧ NewAuthServiceConfigs (Except.error "no env") [["enabled"]] =
        Except.error ("加载配置失败: " ++ "no env") :=
  ⟨by decide, (C10_short_csv_errors [["enabled"]] (by decide)).1,
    (C10_short_csv_errors [["enabled"]] (by decide)).2 "no env"⟩

/-! ### C9: CSV row filtering -/

/-- A data row that produces a credential: at least 4 columns and a
first column that is case-insensitively "true" after trimming. -/
def csvRowValid (record : List String) : Bool :=
  decide (4 ≤ record.length) && (toLowerStr (trimSpace (record.getD 0 "")) == "true")

theorem loadAccountRows_length (rows : List (List String)) :
    (loadAccountRows rows).length = (rows.filter csvRowValid).length := by
  induction rows with
  | nil => rfl
  | cons r rest ih =>
    unfold loadAccountRows
    rw [List.filter_cons]
    by_cases h4 : r.length < 4
    · have hv : csvRowValid r = false := by
        unfold csvRowValid
        have hd : decide (4 ≤ r.length) = false := by
          simp only [decide_eq_false_iff_not, not_le]
          omega
        rw [hd, Bool.false_and]
      rw [if_pos h4, hv]
      simp only [Bool.false_eq_true, if_false]
      exact ih
    · rw [if_neg h4]
      by_cases he : toLowerStr (trimSpace (r.getD 0 "")) == "true"
      · have hv : csvRowValid r = true := by
          unfold csvRowValid
          have hd : decide (4 ≤ r.length) = true := by
            simp only [decide_eq_true_eq]
            omega
          rw [hd, he, Bool.and_self]
        rw [if_pos he, hv]
        simp only [if_true, List.length_cons]
        rw [ih]
      · have hv : csvRowValid r = false := by
          unfold csvRowValid
          rw [Bool.not_eq_true] at he
          rw [he, Bool.and_false]
        rw [if_neg he, hv]
        simp only [Bool.false_eq_true, if_false]
        exact ih

theorem loadAccountRows_mem (rows : List (List String)) (c : AuthConfig)
    (hc : c ∈ loadAccountRows rows) :
    c.AuthType = AuthMethodIdC ∧ c.Disabled = false ∧
      ∃ row ∈ rows, csvRowValid row = true
        ∧ c.RefreshToken = trimSpace (row.getD 1 "")
        ∧ c.ClientID = trimSpace (row.getD 2 "")
        ∧ c.ClientSecret = trimSpace (row.getD 3 "") := by
  induction rows with
  | nil => simp [loadAccountRows] at hc
  | cons r rest ih =>
    unfold loadAccountRows at hc
    by_cases h4 : r.length < 4
    · rw [if_pos h4] at hc
      obtain ⟨h1, h2, row, hrow, hrest⟩ := ih hc
      exact ⟨h1, h2, row, List.mem_cons_of_mem r hrow, hrest⟩
    · rw [if_neg h4] at hc
      by_cases he : toLowerStr (trimSpace (r.getD 0 "")) == "true"
      · rw [if_pos he] at hc
        rcases List.mem_cons.mp hc with rfl | hmem
        · refine ⟨rfl, rfl, r, List.mem_cons_self r rest, ?_, rfl, rfl, rfl⟩
          unfold csvRowValid
          have hd : decide (4 ≤ r.length) = true := by
            simp only [decide_eq_true_eq]
            omega
          rw [hd, he, Bool.and_self]
        · obtain ⟨h1, h2, row, hrow, hrest⟩ := ih hmem
          exact ⟨h1, h2, row, List.mem_cons_of_mem r hrow, hrest⟩
      · rw [if_neg he] at hc
        obtain ⟨h1, h2, row, hrow, hrest⟩ := ih hc
        exact ⟨h1, h2, row, List.mem_cons_of_mem r hrow, hrest⟩

/-- C9: on a parsed CSV with a header and at least one data row, loading
succeeds (a short row is skipped with a warning and never aborts the
remaining rows), the number of credentials equals the number of valid
rows (at least 4 columns and a case-insensitively "true" first column —
so a non-"true" row yields no credential), and each produced credential
uses the `IdC` auth method with secret material taken whitespace-trimmed
from columns 2 through 4 of some valid row. -/
theorem C9_loadAccountsFromCSV_rows (header : List String)
    (rows : List (List String)) (hne : rows ≠ []) :
    LoadAccountsFromCSV (header :: rows) = Except.ok (loadAccountRows rows)
    ∧ (loadAccountRows rows).length = (rows.filter csvRowValid).length
    ∧ ∀ c ∈ loadAccountRows rows,
        c.AuthType = AuthMethodIdC ∧ c.Disabled = false ∧
          ∃ row ∈ rows, csvRowValid row = true
            ∧ c.RefreshToken = trimSpace (row.getD 1 "")
            ∧ c.ClientID = trimSpace (row.getD 2 "")
            ∧ c.ClientSecret = trimSpace (row.getD 3 "") := by
  refine ⟨?_, loadAccountRows_length rows, fun c hc => loadAccountRows_mem rows c hc⟩
  unfold LoadAccountsFromCSV
  rw [if_neg ?_]
  · rfl
  · simp only [List.length_cons, not_lt]
    have := List.length_pos.mpr hne
    omega

/-- C9 witness: a header, one enabled row, one disabled row and one
short row yield exactly the one `IdC` credential of the enabled row. -/
theorem C9_witness :
    LoadAccountsFromCSV
        [["enabled", "refreshToken", "clientId", "clientSecret"],
         ["true", "rt1", "cid1", "csec1"],
         ["false", "rt2", "cid2", "csec2"],
         ["true", "x", "y"]] =
      Except.ok [{ AuthType := "IdC"
                   RefreshToken := "rt1"
                   ClientID := "cid1"
                   ClientSecret := "csec1"
                   Disabled := false }] := by
  have h := (C9_loadAccountsFromCSV_rows
      ["enabled", "refreshToken", "clientId", "clientSecret"]
      [["true", "rt1", "cid1", "csec1"],
       ["false", "rt2", "cid2", "csec2"],
       ["true", "x", "y"]] (by decide)).1
  rw [h]
  rfl

/-! ### C2: which configs reach the pool -/

theorem processConfigs_mem (configs : List AuthConfig) (c : AuthConfig)
    (hc : c ∈ processConfigs configs) :
    c.RefreshToken ≠ "" ∧ c.Disabled = false ∧
      (c.AuthType = AuthMethodIdC → c.ClientID ≠ "" ∧ c.ClientSecret ≠ "") := by
  induction configs with
  | nil => simp [processConfigs] at hc
  | cons cfg rest ih =>
    unfold processConfigs at hc
    by_cases h1 : (cfg.RefreshToken == "") = true
    · rw [if_pos h1] at hc
      exact ih hc
    · rw [if_neg h1] at hc
      cases hA : cfg.AuthType == "" <;> rw [hA] at hc <;>
        simp only [Bool.false_eq_true, if_false, if_true] at hc
      · by_cases h2 : (cfg.AuthType == AuthMethodIdC
            && (cfg.ClientID == "" || cfg.ClientSecret == "")) = true
        · rw [if_pos h2] at hc
          exact ih hc
        · rw [if_neg h2] at hc
          by_cases h3 : cfg.Disabled = true
          · rw [if_pos h3] at hc
            exact ih hc
          · rw [if_neg h3] at hc
            rcases List.mem_cons.mp hc with rfl | hmem
            · refine ⟨by simpa using h1, by simpa using h3, ?_⟩
              intro hidc
              have hbeq : (c.AuthType == AuthMethodIdC) = true := by
                simpa using hidc
              rw [hbeq, Bool.true_and] at h2
              simp only [Bool.or_eq_true, not_or] at h2
              obtain ⟨ha, hb⟩ := h2
              exact ⟨by simpa using ha, by simpa using hb⟩
            · exact ih hmem
      · by_cases h2 : (({ cfg with AuthType := AuthMethodSocial }).AuthType == AuthMethodIdC
            && (cfg.ClientID == "" || cfg.ClientSecret == "")) = true
        · rw [if_pos h2] at hc
          exact ih hc
        · rw [if_neg h2] at hc
          by_cases h3 : cfg.Disabled = true
          · rw [if_pos h3] at hc
            exact ih hc
          · rw [if_neg h3] at hc
            rcases List.mem_cons.mp hc with rfl | hmem
            · refine ⟨by simpa using h1, by simpa using h3, ?_⟩
              intro hidc
              have hss : AuthMethodSocial = AuthMethodIdC := hidc
              exact absurd hss (by decide)
            · exact ih hmem

/-- C2 (corrected): configs from the env/JSON path (`processConfigs`)
always satisfy the invariant — non-empty `RefreshToken`, not disabled,
and `IdC` implies non-empty `ClientID` and `ClientSecret` — while
CSV-loaded configs are guaranteed only to be `IdC` and enabled: their
secret fields are taken from the row without any non-emptiness
validation, so the full invariant does not hold for the CSV path. -/
theorem C2_pool_config_validation (configs : List AuthConfig)
    (records : List (List String)) :
    (∀ c ∈ processConfigs configs,
        c.RefreshToken ≠ "" ∧ c.Disabled = false ∧
          (c.AuthType = AuthMethodIdC → c.ClientID ≠ "" ∧ c.ClientSecret ≠ ""))
    ∧ (∀ cs, LoadAccountsFromCSV records = Except.ok cs →
        ∀ c ∈ cs, c.AuthType = AuthMethodIdC ∧ c.Disabled = false) := by
  constructor
  · exact fun c hc => processConfigs_mem configs c hc
  · intro cs hcs c hc
    unfold LoadAccountsFromCSV at hcs
    by_cases h : records.length < 2
    · rw [if_pos h] at hcs
      cases hcs
    · rw [if_neg h] at hcs
      cases hcs
      obtain ⟨h1, h2, -⟩ := loadAccountRows_mem records.tail c hc
      exact ⟨h1, h2⟩

/-- C2 witness: a Social config with a refresh token passes
`processConfigs` and satisfies the invariant; a CSV row yields an
enabled `IdC` config. -/
theorem C2_witness :
    ({ AuthType := "Social", RefreshToken := "rt0", ClientID := "",
       ClientSecret := "", Disabled := false } : AuthConfig).RefreshToken ≠ ""
    ∧ ({ AuthType := "IdC", RefreshToken := "", ClientID := "",
         ClientSecret := "", Disabled := false } : AuthConfig).AuthType = AuthMethodIdC := by
  have h := (C2_pool_config_validation
      [{ AuthType := "Social", RefreshToken := "rt0", ClientID := "",
         ClientSecret := "", Disabled := false }]
      [["h1", "h2", "h3", "h4"], ["true", "", "", ""]])
  refine ⟨(h.1 _ ?_).1, ?_⟩
  · simp [processConfigs, AuthMethodIdC]
  · exact ((h.2 _ (by rfl) _ (by decide)).1)

/-- C2 counterexample: `AddAccountsFromCSV` with the 4-column row
`("true","","","")` appends an `IdC` config whose `RefreshToken`,
`ClientID` and `ClientSecret` are all empty to the manager's config
list — an invariant-violating credential reaches the pool. -/
theorem C2_counterexample :
    (AddAccountsFromCSV
        { now := 0
          refreshSingleToken := fun _ => Except.error "down"
          CheckUsageLimits := fun _ => Except.error "down" }
        (NewTokenManager 300
          [{ AuthType := "Social", RefreshToken := "rt0", ClientID := "",
             ClientSecret := "", Disabled := false }])
        [["h1", "h2", "h3", "h4"], ["true", "", "", ""]]).map
      (fun tm => tm.configs) =
    Except.ok
      [{ AuthType := "Social", RefreshToken := "rt0", ClientID := "",
         ClientSecret := "", Disabled := false },
       { AuthType := "IdC", RefreshToken := "", ClientID := "",
         ClientSecret := "", Disabled := false }] := by
  rfl

/-! ### C6: per-index refresh error handling -/

/-- C6: `refreshSingleTokenByIndex` fails — writing nothing, since every
error return precedes the single cache write in the source — when the
index is out of range, the credential is disabled, or the external token
exchange fails; when the exchange succeeds but the usage check fails it
still returns success and writes an entry whose `Available` is 0, which
`IsUsable` rejects at every instant. -/
theorem C6_refreshSingleTokenByIndex_spec (env : RefreshEnv) (tm : TokenManager)
    (index : Nat) :
    (tm.configs[index]? = none →
        refreshSingleTokenByIndex env tm index = Except.error "索引超出范围")
    ∧ (∀ cfg, tm.configs[index]? = some cfg → cfg.Disabled = true →
        refreshSingleTokenByIndex env tm index = Except.error "token已禁用")
    ∧ (∀ cfg e, tm.configs[index]? = some cfg → cfg.Disabled = false →
        env.refreshSingleToken cfg = Except.error e →
        refreshSingleTokenByIndex env tm index =
          Except.error ("刷新token失败: " ++ e))
    ∧ (∀ cfg token e, tm.configs[index]? = some cfg → cfg.Disabled = false →
        env.refreshSingleToken cfg = Except.ok token →
        env.CheckUsageLimits token = Except.error e →
        refreshSingleTokenByIndex env tm index = Except.ok { tm with
          tokens := insertToken tm.tokens (cacheKey index)
            { Token := token
              UsageInfo := none
              CachedAt := env.now
              LastUsed := 0
              Available := 0 } }
        ∧ ∀ t : Int, CachedToken.IsUsable
            { Token := token
              UsageInfo := none
              CachedAt := env.now
              LastUsed := 0
              Available := 0 } t = false) := by
  refine ⟨?_, ?_, ?_, ?_⟩
  · intro h
    unfold refreshSingleTokenByIndex
    rw [h]
  · intro cfg h hd
    unfold refreshSingleTokenByIndex
    rw [h]
    dsimp only
    rw [if_pos hd]
  · intro cfg e h hd he
    unfold refreshSingleTokenByIndex
    rw [h]
    dsimp only
    rw [if_neg (by simp [hd]), he]
  · intro cfg token e h hd ht hu
    constructor
    · unfold refreshSingleTokenByIndex
      rw [h]
      dsimp only
      rw [if_neg (by simp [hd]), ht]
      dsimp only
      rw [hu]
    · intro t
      unfold CachedToken.IsUsable
      split
      · rfl
      · simp

/-- C6 witness: one enabled config, an exchange that succeeds and a
usage check that fails: the refresh succeeds and the written entry is
unusable. -/
theorem C6_witness :
    refreshSingleTokenByIndex
        { now := 7
          refreshSingleToken := fun _ => Except.ok { AccessToken := "at", ExpiresAt := 50 }
          CheckUsageLimits := fun _ => Except.error "usage down" }
        (NewTokenManager 300
          [{ AuthType := "Social", RefreshToken := "rt0", ClientID := "",
             ClientSecret := "", Disabled := false }]) 0 =
      Except.ok { NewTokenManager 300
          [{ AuthType := "Social", RefreshToken := "rt0", ClientID := "",
             ClientSecret := "", Disabled := false }] with
        tokens := insertToken (NewTokenManager 300
          [{ AuthType := "Social", RefreshToken := "rt0", ClientID := "",
             ClientSecret := "", Disabled := false }]).tokens (cacheKey 0)
          { Token := { AccessToken := "at", ExpiresAt := 50 }
            UsageInfo := none
            CachedAt := 7
            LastUsed := 0
            Available := 0 } }
    ∧ CachedToken.IsUsable
        { Token := { AccessToken := "at", ExpiresAt := 50 }
          UsageInfo := none
          CachedAt := 7
          LastUsed := 0
          Available := 0 } 9 = false := by
  have h := (C6_refreshSingleTokenByIndex_spec
      { now := 7
        refreshSingleToken := fun _ => Except.ok { AccessToken := "at", ExpiresAt := 50 }
        CheckUsageLimits := fun _ => Except.error "usage down" }
      (NewTokenManager 300
        [{ AuthType := "Social", RefreshToken := "rt0", ClientID := "",
           ClientSecret := "", Disabled := false }]) 0).2.2.2
      { AuthType := "Social", RefreshToken := "rt0", ClientID := "",
        ClientSecret := "", Disabled := false }
      { AccessToken := "at", ExpiresAt := 50 } "usage down" rfl rfl rfl rfl
  exact ⟨h.1, h.2 9⟩

/-! ### Characterizing a single refresh -/

theorem cacheKey_eq (i : Nat) : cacheKey i = i := rfl

theorem refreshSingleTokenByIndex_ok (env : RefreshEnv) (tm : TokenManager)
    (i : Nat) (tm1 : TokenManager)
    (h : refreshSingleTokenByIndex env tm i = Except.ok tm1) :
    tm1.ttl = tm.ttl ∧ tm1.configs = tm.configs ∧ tm1.configOrder = tm.configOrder
    ∧ tm1.currentIndex = tm.currentIndex ∧ tm1.exhausted = tm.exhausted
    ∧ tm1.lastRefresh = tm.lastRefresh
    ∧ ∃ cfg entry, tm.configs[i]? = some cfg ∧ cfg.Disabled = false
        ∧ refreshOutcome env cfg = some entry
        ∧ tm1.tokens = insertToken tm.tokens i entry := by
  unfold refreshSingleTokenByIndex at h
  cases hcfg : tm.configs[i]? with
  | none =>
    rw [hcfg] at h
    cases h
  | some cfg =>
    rw [hcfg] at h
    dsimp only at h
    by_cases hd : cfg.Disabled = true
    · rw [if_pos hd] at h
      cases h
    · rw [if_neg hd] at h
      cases hrt : env.refreshSingleToken cfg with
      | error e =>
        rw [hrt] at h
        cases h
      | ok token =>
        rw [hrt] at h
        dsimp only at h
        cases hcu : env.CheckUsageLimits token with
        | ok usage =>
          rw [hcu] at h
          cases h
          refine ⟨rfl, rfl, rfl, rfl, rfl, rfl, cfg,
            { Token := token
              UsageInfo := some usage
              CachedAt := env.now
              LastUsed := 0
              Available := CalculateAvailableCount usage }, rfl,
            by simpa using hd, ?_, rfl⟩
          unfold refreshOutcome refreshedEntry
          rw [if_neg hd, hrt]
          dsimp only
          rw [hcu]
        | error e =>
          rw [hcu] at h
          cases h
          refine ⟨rfl, rfl, rfl, rfl, rfl, rfl, cfg,
            { Token := token
              UsageInfo := none
              CachedAt := env.now
              LastUsed := 0
              Available := 0 }, rfl,
            by simpa using hd, ?_, rfl⟩
          unfold refreshOutcome refreshedEntry
          rw [if_neg hd, hrt]
          dsimp only
          rw [hcu]

theorem refreshSingleTokenByIndex_error_spec (env : RefreshEnv) (tm : TokenManager)
    (i : Nat) (msg : String)
    (h : refreshSingleTokenByIndex env tm i = Except.error msg) :
    tm.configs[i]? = none
    ∨ ∃ cfg, tm.configs[i]? = some cfg ∧ refreshOutcome env cfg = none := by
  unfold refreshSingleTokenByIndex at h
  cases hcfg : tm.configs[i]? with
  | none => exact Or.inl rfl
  | some cfg =>
    rw [hcfg] at h
    dsimp only at h
    refine Or.inr ⟨cfg, rfl, ?_⟩
    by_cases hd : cfg.Disabled = true
    · unfold refreshOutcome
      rw [if_pos hd]
    · rw [if_neg hd] at h
      cases hrt : env.refreshSingleToken cfg with
      | error e =>
        unfold refreshOutcome refreshedEntry
        rw [if_neg hd, hrt]
      | ok token =>
        rw [hrt] at h
        dsimp only at h
        cases hcu : env.CheckUsageLimits token with
        | ok usage =>
          rw [hcu] at h
          cases h
        | error e =>
          rw [hcu] at h
          cases h

/-! ### Characterizing one selection-loop iteration -/

theorem selectStep_none_spec (env : RefreshEnv) (tm tm' : TokenManager)
    (h : selectStep env tm = (none, tm')) :
    tm'.ttl = tm.ttl ∧ tm'.configs = tm.configs ∧ tm'.configOrder = tm.configOrder
    ∧ tm'.currentIndex = (tm.currentIndex + 1) % tm.configOrder.length
    ∧ tm'.exhausted = insertKey tm.exhausted (tm.configOrder.getD tm.currentIndex 0) := by
  have hadv : ∀ tm1 : TokenManager,
      tm1.ttl = tm.ttl → tm1.configs = tm.configs → tm1.configOrder = tm.configOrder →
      tm1.currentIndex = tm.currentIndex → tm1.exhausted = tm.exhausted →
      advanceCursor tm1 (tm.configOrder.getD tm.currentIndex 0) = tm' →
      tm'.ttl = tm.ttl ∧ tm'.configs = tm.configs ∧ tm'.configOrder = tm.configOrder
      ∧ tm'.currentIndex = (tm.currentIndex + 1) % tm.configOrder.length
      ∧ tm'.exhausted = insertKey tm.exhausted (tm.configOrder.getD tm.currentIndex 0) := by
    intro tm1 h1 h2 h3 h4 h5 heq
    rw [← heq]
    unfold advanceCursor
    exact ⟨h1, h2, h3, by rw [h4, h3], by rw [h5]⟩
  unfold selectStep at h
  dsimp only at h
  cases hl : lookupToken tm.tokens (tm.configOrder.getD tm.currentIndex 0) with
  | some cached =>
    rw [hl] at h
    dsimp only at h
    by_cases hstale : tm.ttl < env.now - cached.CachedAt
    · rw [if_pos hstale] at h
      cases hr : refreshSingleTokenByIndex env tm tm.currentIndex with
      | error e =>
        rw [hr] at h
        dsimp only at h
        rw [Prod.mk.injEq] at h
        exact hadv tm rfl rfl rfl rfl rfl h.2
      | ok tm1 =>
        rw [hr] at h
        dsimp only at h
        obtain ⟨f1, f2, f3, f4, f5, f6, -⟩ :=
          refreshSingleTokenByIndex_ok env tm tm.currentIndex tm1 hr
        cases hl1 : lookupToken tm1.tokens (tm.configOrder.getD tm.currentIndex 0) with
        | some cached1 =>
          rw [hl1] at h
          dsimp only at h
          by_cases hu : cached1.IsUsable env.now = true
          · rw [if_pos hu] at h
            rw [Prod.mk.injEq] at h
            exact absurd h.1 (by simp)
          · rw [if_neg hu] at h
            rw [Prod.mk.injEq] at h
            exact hadv tm1 f1 f2 f3 f4 f5 h.2
        | none =>
          rw [hl1] at h
          dsimp only at h
          rw [Prod.mk.injEq] at h
          exact hadv tm1 f1 f2 f3 f4 f5 h.2
    · rw [if_neg hstale] at h
      by_cases hu : cached.IsUsable env.now = true
      · rw [if_pos hu] at h
        rw [Prod.mk.injEq] at h
        exact absurd h.1 (by simp)
      · rw [if_neg hu] at h
        rw [Prod.mk.injEq] at h
        exact hadv tm rfl rfl rfl rfl rfl h.2
  | none =>
    rw [hl] at h
    dsimp only at h
    cases hr : refreshSingleTokenByIndex env tm tm.currentIndex with
    | error e =>
      rw [hr] at h
      dsimp only at h
      rw [Prod.mk.injEq] at h
      exact hadv tm rfl rfl rfl rfl rfl h.2
    | ok tm1 =>
      rw [hr] at h
      dsimp only at h
      obtain ⟨f1, f2, f3, f4, f5, f6, -⟩ :=
        refreshSingleTokenByIndex_ok env tm tm.currentIndex tm1 hr
      cases hl1 : lookupToken tm1.tokens (tm.configOrder.getD tm.currentIndex 0) with
      | some cached1 =>
        rw [hl1] at h
        dsimp only at h
        by_cases hu : cached1.IsUsable env.now = true
        · rw [if_pos hu] at h
          rw [Prod.mk.injEq] at h
          exact absurd h.1 (by simp)
        · rw [if_neg hu] at h
          rw [Prod.mk.injEq] at h
          exact hadv tm1 f1 f2 f3 f4 f5 h.2
      | none =>
        rw [hl1] at h
        dsimp only at h
        rw [Prod.mk.injEq] at h
        exact hadv tm1 f1 f2 f3 f4 f5 h.2

theorem selectStep_some_spec (env : RefreshEnv) (tm tm' : TokenManager)
    (key : Nat) (best : CachedToken)
    (h : selectStep env tm = (some (key, best), tm')) :
    key = tm.configOrder.getD tm.currentIndex 0
    ∧ best.IsUsable env.now = true
    ∧ lookupToken tm'.tokens key = some best
    ∧ tm'.ttl = tm.ttl ∧ tm'.configs = tm.configs ∧ tm'.configOrder = tm.configOrder
    ∧ tm'.currentIndex = tm.currentIndex ∧ tm'.exhausted = tm.exhausted := by
  unfold selectStep at h
  dsimp only at h
  cases hl : lookupToken tm.tokens (tm.configOrder.getD tm.currentIndex 0) with
  | some cached =>
    rw [hl] at h
    dsimp only at h
    by_cases hstale : tm.ttl < env.now - cached.CachedAt
    · rw [if_pos hstale] at h
      cases hr : refreshSingleTokenByIndex env tm tm.currentIndex with
      | error e =>
        rw [hr] at h
        dsimp only at h
        rw [Prod.mk.injEq] at h
        exact absurd h.1 (by simp)
      | ok tm1 =>
        rw [hr] at h
        dsimp only at h
        obtain ⟨f1, f2, f3, f4, f5, f6, -⟩ :=
          refreshSingleTokenByIndex_ok env tm tm.currentIndex tm1 hr
        cases hl1 : lookupToken tm1.tokens (tm.configOrder.getD tm.currentIndex 0) with
        | some cached1 =>
          rw [hl1] at h
          dsimp only at h
          by_cases hu : cached1.IsUsable env.now = true
          · rw [if_pos hu] at h
            rw [Prod.mk.injEq, Option.some.injEq, Prod.mk.injEq] at h
            obtain ⟨⟨hk, hb⟩, htm⟩ := h
            subst hk
            subst hb
            subst htm
            exact ⟨rfl, hu, hl1, f1, f2, f3, f4, f5⟩
          · rw [if_neg hu] at h
            rw [Prod.mk.injEq] at h
            exact absurd h.1 (by simp)
        | none =>
          rw [hl1] at h
          dsimp only at h
          rw [Prod.mk.injEq] at h
          exact absurd h.1 (by simp)
    · rw [if_neg hstale] at h
      by_cases hu : cached.IsUsable env.now = true
      · rw [if_pos hu] at h
        rw [Prod.mk.injEq, Option.some.injEq, Prod.mk.injEq] at h
        obtain ⟨⟨hk, hb⟩, htm⟩ := h
        subst hk
        subst hb
        subst htm
        exact ⟨rfl, hu, hl, rfl, rfl, rfl, rfl, rfl⟩
      · rw [if_neg hu] at h
        rw [Prod.mk.injEq] at h
        exact absurd h.1 (by simp)
  | none =>
    rw [hl] at h
    dsimp only at h
    cases hr : refreshSingleTokenByIndex env tm tm.currentIndex with
    | error e =>
      rw [hr] at h
      dsimp only at h
      rw [Prod.mk.injEq] at h
      exact absurd h.1 (by simp)
    | ok tm1 =>
      rw [hr] at h
      dsimp only at h
      obtain ⟨f1, f2, f3, f4, f5, f6, -⟩ :=
        refreshSingleTokenByIndex_ok env tm tm.currentIndex tm1 hr
      cases hl1 : lookupToken tm1.tokens (tm.configOrder.getD tm.currentIndex 0) with
      | some cached1 =>
        rw [hl1] at h
        dsimp only at h
        by_cases hu : cached1.IsUsable env.now = true
        · rw [if_pos hu] at h
          rw [Prod.mk.injEq, Option.some.injEq, Prod.mk.injEq] at h
          obtain ⟨⟨hk, hb⟩, htm⟩ := h
          subst hk
          subst hb
          subst htm
          exact ⟨rfl, hu, hl1, f1, f2, f3, f4, f5⟩
        · rw [if_neg hu] at h
          rw [Prod.mk.injEq] at h
          exact absurd h.1 (by simp)
      | none =>
        rw [hl1] at h
        dsimp only at h
        rw [Prod.mk.injEq] at h
        exact absurd h.1 (by simp)

/-! ### Characterizing the bounded selection loop -/

theorem generateConfigOrder_eq_range (configs : List AuthConfig) :
    generateConfigOrder configs = List.range configs.length := by
  unfold generateConfigOrder
  have hmap : ∀ l : List Nat, l.map cacheKey = l := by
    intro l
    induction l with
    | nil => rfl
    | cons a l ih => rw [List.map_cons, ih, cacheKey_eq]
  exact hmap _

theorem range_getD (n m : Nat) (hm : m < n) : (List.range n).getD m 0 = m := by
  rw [List.getD_eq_getElem?_getD, List.getElem?_range hm]
  rfl

theorem selectLoop_none_spec (env : RefreshEnv) :
    ∀ (fuel : Nat) (tm tm' : TokenManager) (trace : List Nat),
      tm.currentIndex < tm.configOrder.length →
      selectLoop env tm fuel = (none, tm', trace) →
      trace = (List.range fuel).map
          (fun t => tm.configOrder.getD ((tm.currentIndex + t) % tm.configOrder.length) 0)
      ∧ tm'.ttl = tm.ttl
      ∧ tm'.configs = tm.configs
      ∧ tm'.configOrder = tm.configOrder
      ∧ tm'.currentIndex = (tm.currentIndex + fuel) % tm.configOrder.length
      ∧ (∀ k, k ∈ tm'.exhausted ↔ (k ∈ tm.exhausted ∨ k ∈ trace)) := by
  intro fuel
  induction fuel with
  | zero =>
    intro tm tm' trace hidx h
    unfold selectLoop at h
    rw [Prod.mk.injEq, Prod.mk.injEq] at h
    obtain ⟨-, htm, htr⟩ := h
    subst htm
    subst htr
    refine ⟨by simp, rfl, rfl, rfl, ?_, by simp⟩
    rw [Nat.add_zero, Nat.mod_eq_of_lt hidx]
  | succ fuel ih =>
    intro tm tm' trace hidx h
    have hN : 0 < tm.configOrder.length := Nat.lt_of_le_of_lt (Nat.zero_le _) hidx
    unfold selectLoop at h
    dsimp only at h
    cases hs : selectStep env tm with
    | mk o tm1 =>
      cases o with
      | some sel =>
        rw [hs] at h
        dsimp only at h
        rw [Prod.mk.injEq, Prod.mk.injEq] at h
        exact absurd h.1 (by simp)
      | none =>
        rw [hs] at h
        dsimp only at h
        rw [Prod.mk.injEq, Prod.mk.injEq] at h
        obtain ⟨ho, htm, htr⟩ := h
        obtain ⟨s1, s2, s3, s4, s5⟩ := selectStep_none_spec env tm tm1 hs
        have hidx1 : tm1.currentIndex < tm1.configOrder.length := by
          rw [s4, s3]
          exact Nat.mod_lt _ hN
        have hre : selectLoop env tm1 fuel =
            (none, tm', (selectLoop env tm1 fuel).2.2) := by
          rw [← ho, ← htm]
        obtain ⟨t1, t2, t3, t4, t5, t6⟩ := ih tm1 tm' _ hidx1 hre
        have hKey : tm.configOrder.getD tm.currentIndex 0 =
            tm.configOrder.getD ((tm.currentIndex + 0) % tm.configOrder.length) 0 := by
          rw [Nat.add_zero, Nat.mod_eq_of_lt hidx]
        have htail : (selectLoop env tm1 fuel).2.2 = (List.range fuel).map
            (fun t => tm.configOrder.getD
              ((tm.currentIndex + (t + 1)) % tm.configOrder.length) 0) := by
          rw [t1, s3, s4]
          refine List.map_congr_left ?_
          intro t ht
          have : ((tm.currentIndex + 1) % tm.configOrder.length + t) %
              tm.configOrder.length =
              (tm.currentIndex + (t + 1)) % tm.configOrder.length := by
            rw [Nat.mod_add_mod]
            congr 1
            omega
          rw [this]
        have htrace : trace = (List.range (fuel + 1)).map
            (fun t => tm.configOrder.getD
              ((tm.currentIndex + t) % tm.configOrder.length) 0) := by
          rw [← htr, List.range_succ_eq_map, List.map_cons, List.map_map, ← hKey, htail]
          rfl
        refine ⟨htrace, by rw [t2, s1], by rw [t3, s2], by rw [t4, s3], ?_, ?_⟩
        · rw [t5, s4, s3, Nat.mod_add_mod]
          congr 1
          omega
        · intro k
          rw [t6 k, s5, mem_insertKey, ← htr, List.mem_cons]
          tauto

theorem selectLoop_some_spec (env : RefreshEnv) :
    ∀ (fuel : Nat) (tm tm' : TokenManager) (key : Nat) (best : CachedToken)
      (trace : List Nat),
      selectLoop env tm fuel = (some (key, best), tm', trace) →
      best.IsUsable env.now = true ∧ lookupToken tm'.tokens key = some best := by
  intro fuel
  induction fuel with
  | zero =>
    intro tm tm' key best trace h
    unfold selectLoop at h
    rw [Prod.mk.injEq] at h
    exact absurd h.1 (by simp)
  | succ fuel ih =>
    intro tm tm' key best trace h
    unfold selectLoop at h
    dsimp only at h
    cases hs : selectStep env tm with
    | mk o tm1 =>
      cases o with
      | some sel =>
        rw [hs] at h
        dsimp only at h
        rw [Prod.mk.injEq, Prod.mk.injEq] at h
        obtain ⟨ho, htm, -⟩ := h
        rw [Option.some.injEq] at ho
        subst ho
        obtain ⟨-, hu, hlk, -⟩ := selectStep_some_spec env tm tm1 key best hs
        rw [← htm]
        exact ⟨hu, hlk⟩
      | none =>
        rw [hs] at h
        dsimp only at h
        rw [Prod.mk.injEq, Prod.mk.injEq] at h
        obtain ⟨ho, htm, -⟩ := h
        have hre : selectLoop env tm1 fuel =
            (some (key, best), tm', (selectLoop env tm1 fuel).2.2) := by
          rw [← ho, ← htm]
        exact ih tm1 tm' key best _ hre

theorem selectBestTokenUnlocked_some_spec (env : RefreshEnv) (tm tm' : TokenManager)
    (key : Nat) (best : CachedToken) (trace : List Nat)
    (h : selectBestTokenUnlocked env tm = (some (key, best), tm', trace)) :
    best.IsUsable env.now = true := by
  unfold selectBestTokenUnlocked at h
  by_cases hlen : tm.configOrder.length = 0
  · rw [if_pos hlen] at h
    cases hf : tm.tokens.find? (fun p =>
        decide (env.now - p.2.CachedAt ≤ tm.ttl) && p.2.IsUsable env.now) with
    | some p =>
      rw [hf] at h
      dsimp only at h
      rw [Prod.mk.injEq, Option.some.injEq] at h
      have hpred := List.find?_some hf
      rw [Bool.and_eq_true] at hpred
      have hb : p.2 = best := congrArg Prod.snd h.1
      rw [← hb]
      exact hpred.2
    | none =>
      rw [hf] at h
      dsimp only at h
      rw [Prod.mk.injEq] at h
      exact absurd h.1 (by simp)
  · rw [if_neg hlen] at h
    exact (selectLoop_some_spec env tm.configOrder.length tm tm' key best trace h).1

/-! ### C1: the selection contract -/

/-- C1: under the pool invariant (cursor within the non-empty rotation
order, order generated from the configs), one `getBestToken` call either
returns the access token of an entry satisfying `IsUsable` at the call
instant, or fails with the "no usable token" error after having
attempted every rotation key exactly once: the per-iteration attempt
trace has the rotation order's length, no duplicates, and covers
exactly its keys; every attempted (failed) key is in the exhausted set
afterwards, and the cursor, advanced once modulo N per failed attempt,
ends back at its initial position. -/
theorem C1_getBestToken_spec (env : RefreshEnv) (tm : TokenManager)
    (hidx : tm.currentIndex < tm.configOrder.length)
    (hord : tm.configOrder = generateConfigOrder tm.configs) :
    (∃ key best, (selectBestTokenUnlocked env tm).1 = some (key, best)
        ∧ best.IsUsable env.now = true
        ∧ (getBestToken env tm).1 = Except.ok best.Token)
    ∨ ((selectBestTokenUnlocked env tm).1 = none
        ∧ (getBestToken env tm).1 = Except.error "没有可用的token"
        ∧ (selectBestTokenUnlocked env tm).2.2.length = tm.configOrder.length
        ∧ (selectBestTokenUnlocked env tm).2.2.Nodup
        ∧ (∀ k, k ∈ (selectBestTokenUnlocked env tm).2.2 ↔ k ∈ tm.configOrder)
        ∧ (∀ k ∈ tm.configOrder, k ∈ (selectBestTokenUnlocked env tm).2.1.exhausted)
        ∧ (selectBestTokenUnlocked env tm).2.1.currentIndex = tm.currentIndex) := by
  have hN : 0 < tm.configOrder.length := Nat.lt_of_le_of_lt (Nat.zero_le _) hidx
  have hlen : tm.configOrder.length = tm.configs.length := by
    rw [hord, generateConfigOrder_eq_range, List.length_range]
  have hgetD : ∀ m, m < tm.configOrder.length → tm.configOrder.getD m 0 = m := by
    intro m hm
    rw [hord, generateConfigOrder_eq_range]
    exact range_getD _ _ (by omega)
  rcases hsel : selectBestTokenUnlocked env tm with ⟨o, tm1, trace⟩
  cases o with
  | some sel =>
    rcases sel with ⟨key, best⟩
    left
    refine ⟨key, best, rfl,
      selectBestTokenUnlocked_some_spec env tm tm1 key best trace hsel, ?_⟩
    unfold getBestToken
    rw [hsel]
  | none =>
    right
    have hloop : selectLoop env tm tm.configOrder.length = (none, tm1, trace) := by
      unfold selectBestTokenUnlocked at hsel
      rw [if_neg (by omega)] at hsel
      exact hsel
    obtain ⟨htr, -, -, -, hcur, hexh⟩ :=
      selectLoop_none_spec env tm.configOrder.length tm tm1 trace hidx hloop
    have htr2 : trace = (List.range tm.configOrder.length).map
        (fun t => (tm.currentIndex + t) % tm.configOrder.length) := by
      rw [htr]
      exact List.map_congr_left (fun t ht => hgetD _ (Nat.mod_lt _ hN))
    have hmemOrder : ∀ k, k ∈ tm.configOrder ↔ k < tm.configOrder.length := by
      intro k
      rw [hord, generateConfigOrder_eq_range, List.mem_range, List.length_range]
    have hmemTrace : ∀ k, k ∈ trace ↔ k < tm.configOrder.length := by
      intro k
      rw [htr2]
      constructor
      · intro hk
        obtain ⟨t, -, hkt⟩ := List.mem_map.mp hk
        rw [← hkt]
        exact Nat.mod_lt _ hN
      · intro hk
        refine List.mem_map.mpr
          ⟨(k + tm.configOrder.length - tm.currentIndex) % tm.configOrder.length,
            List.mem_range.mpr (Nat.mod_lt _ hN), ?_⟩
        rw [Nat.add_mod_mod]
        have hsum : tm.currentIndex +
            (k + tm.configOrder.length - tm.currentIndex) =
            k + tm.configOrder.length := by omega
        rw [hsum, Nat.add_mod_right, Nat.mod_eq_of_lt hk]
    refine ⟨rfl, ?_, ?_, ?_, ?_, ?_, ?_⟩
    · unfold getBestToken
      rw [hsel]
    · dsimp only
      rw [htr2, List.length_map, List.length_range]
    · dsimp only
      rw [htr2]
      refine List.Nodup.map_on ?_ (List.nodup_range _)
      intro x hx y hy hxy
      rw [List.mem_range] at hx hy
      have hmod : x % tm.configOrder.length = y % tm.configOrder.length :=
        Nat.ModEq.add_left_cancel' tm.currentIndex hxy
      rw [Nat.mod_eq_of_lt hx, Nat.mod_eq_of_lt hy] at hmod
      exact hmod
    · intro k
      dsimp only
      exact Iff.trans (hmemTrace k) (hmemOrder k).symm
    · intro k hk
      dsimp only
      rw [hexh k]
      exact Or.inr ((hmemTrace k).mpr ((hmemOrder k).mp hk))
    · dsimp only
      rw [hcur, Nat.add_mod_right, Nat.mod_eq_of_lt hidx]

/-- C1 witness: a single enabled config with a fresh usable cached
entry: the call selects it and returns its token. -/
theorem C1_witness :
    0 < ([0] : List Nat).length
    ∧ (getBestToken
        { now := 50
          refreshSingleToken := fun _ => Except.error "down"
          CheckUsageLimits := fun _ => Except.error "down" }
        { tokens := [(0, { Token := { AccessToken := "atA", ExpiresAt := 1000 }
                           UsageInfo := none
                           CachedAt := 45
                           LastUsed := 0
                           Available := 5 })]
          ttl := 10
          configs := [{ AuthType := "Social", RefreshToken := "rtA", ClientID := "",
                        ClientSecret := "", Disabled := false }]
          configOrder := [0]
          currentIndex := 0
          exhausted := []
          lastRefresh := 0 }).1 =
      Except.ok { AccessToken := "atA", ExpiresAt := 1000 } := by
  have h := C1_getBestToken_spec
      { now := 50
        refreshSingleToken := fun _ => Except.error "down"
        CheckUsageLimits := fun _ => Except.error "down" }
      { tokens := [(0, { Token := { AccessToken := "atA", ExpiresAt := 1000 }
                         UsageInfo := none
                         CachedAt := 45
                         LastUsed := 0
                         Available := 5 })]
        ttl := 10
        configs := [{ AuthType := "Social", RefreshToken := "rtA", ClientID := "",
                      ClientSecret := "", Disabled := false }]
        configOrder := [0]
        currentIndex := 0
        exhausted := []
        lastRefresh := 0 }
      (by decide) (by rfl)
  refine ⟨by decide, ?_⟩
  rcases h with ⟨key, best, hs, hu, hok⟩ | ⟨hnone, -⟩
  · rw [hok]
    have hsel : (selectBestTokenUnlocked
        { now := 50
          refreshSingleToken := fun _ => Except.error "down"
          CheckUsageLimits := fun _ => Except.error "down" }
        { tokens := [(0, { Token := { AccessToken := "atA", ExpiresAt := 1000 }
                           UsageInfo := none
                           CachedAt := 45
                           LastUsed := 0
                           Available := 5 })]
          ttl := 10
          configs := [{ AuthType := "Social", RefreshToken := "rtA", ClientID := "",
                        ClientSecret := "", Disabled := false }]
          configOrder := [0]
          currentIndex := 0
          exhausted := []
          lastRefresh := 0 }).1 =
        some (0, { Token := { AccessToken := "atA", ExpiresAt := 1000 }
                   UsageInfo := none
                   CachedAt := 45
                   LastUsed := 0
                   Available := 5 }) := by rfl
    rw [hsel] at hs
    rw [Option.some.injEq] at hs
    have hbest := congrArg Prod.snd hs
    dsimp only at hbest
    rw [← hbest]
  · exact absurd hnone (by
      rw [show (selectBestTokenUnlocked
          { now := 50
            refreshSingleToken := fun _ => Except.error "down"
            CheckUsageLimits := fun _ => Except.error "down" }
          { tokens := [(0, { Token := { AccessToken := "atA", ExpiresAt := 1000 }
                             UsageInfo := none
                             CachedAt := 45
                             LastUsed := 0
                             Available := 5 })]
            ttl := 10
            configs := [{ AuthType := "Social", RefreshToken := "rtA", ClientID := "",
                          ClientSecret := "", Disabled := false }]
            configOrder := [0]
            currentIndex := 0
            exhausted := []
            lastRefresh := 0 }).1 =
          some (0, { Token := { AccessToken := "atA", ExpiresAt := 1000 }
                     UsageInfo := none
                     CachedAt := 45
                     LastUsed := 0
                     Available := 5 }) from rfl]
      simp)

/-! ### C4: the decrement on successful selection -/

/-- C4 (corrected): on every successful `getBestToken` call the selected
entry's `Available` is decremented by exactly 1.0 — the guard
`Available > 0` always holds at a successful selection, so the decrement
always fires and the new value is strictly above -1 — but the code does
not clamp at 0: for a fractional prior value 0 < r < 1 the new value is
negative (see the counterexample), so "never below 0" only holds for
prior values ≥ 1. -/
theorem C4_decrement_spec (env : RefreshEnv) (tm : TokenManager) (key : Nat)
    (best : CachedToken) (tm1 : TokenManager) (trace : List Nat)
    (h : selectBestTokenUnlocked env tm = (some (key, best), tm1, trace)) :
    0 < best.Available
    ∧ (getBestToken env tm).1 = Except.ok best.Token
    ∧ lookupToken (getBestToken env tm).2.tokens key =
        some { best with LastUsed := env.now, Available := best.Available - 1 }
    ∧ (-1 : Rat) < best.Available - 1 := by
  have hu := selectBestTokenUnlocked_some_spec env tm tm1 key best trace h
  have hpos : 0 < best.Available := by
    unfold CachedToken.IsUsable at hu
    by_cases hlt : best.Token.ExpiresAt < env.now
    · rw [if_pos hlt] at hu
      cases hu
    · rw [if_neg hlt] at hu
      exact of_decide_eq_true hu
  have hget : getBestToken env tm =
      (Except.ok best.Token, { tm1 with tokens := insertToken tm1.tokens key ⟨best.Token, best.UsageInfo, best.CachedAt, env.now, if 0 < best.Available then best.Available - 1 else best.Available⟩ }) := by
    unfold getBestToken
    rw [h]
  refine ⟨hpos, by rw [hget], ?_, by linarith⟩
  rw [hget]
  dsimp only
  rw [if_pos hpos]
  exact lookupToken_insertToken_self _ _ _

/-- C4 counterexample: an entry whose `Available` is 1/2 (written as
the normalized rational ⟨1, 2⟩), fresh and usable at the cursor: the
successful call decrements it by exactly 1 to -1/2 < 0, refuting
"remainingUses never goes below 0 for every prior value including
fractional 0 < r < 1". -/
theorem C4_counterexample :
    (lookupToken
        (getBestToken
          { now := 50
            refreshSingleToken := fun _ => Except.error "down"
            CheckUsageLimits := fun _ => Except.error "down" }
          { tokens := [(0, { Token := { AccessToken := "atA", ExpiresAt := 1000 }
                             UsageInfo := none
                             CachedAt := 45
                             LastUsed := 0
                             Available := (⟨1, 2, by norm_num,
                               Nat.coprime_one_left 2⟩ : Rat) })]
            ttl := 10
            configs := [{ AuthType := "Social", RefreshToken := "rtA", ClientID := "",
                          ClientSecret := "", Disabled := false }]
            configOrder := [0]
            currentIndex := 0
            exhausted := []
            lastRefresh := 0 }).2.tokens 0).map CachedToken.Available =
      some ((⟨1, 2, by norm_num, Nat.coprime_one_left 2⟩ : Rat) - 1)
    ∧ ((⟨1, 2, by norm_num, Nat.coprime_one_left 2⟩ : Rat) - 1) < 0 := by
  constructor
  · rfl
  · rw [Rat.mk'_eq_divInt, Rat.divInt_eq_div]
    norm_num

/-- C4 witness: the decrement lemma applied to a concrete successful
selection with `Available = 5`. -/
theorem C4_witness :
    0 < ({ Token := { AccessToken := "atA", ExpiresAt := 1000 }
           UsageInfo := none
           CachedAt := 45
           LastUsed := 0
           Available := 5 } : CachedToken).Available
    ∧ (getBestToken
        { now := 50
          refreshSingleToken := fun _ => Except.error "down"
          CheckUsageLimits := fun _ => Except.error "down" }
        { tokens := [(0, { Token := { AccessToken := "atA", ExpiresAt := 1000 }
                           UsageInfo := none
                           CachedAt := 45
                           LastUsed := 0
                           Available := 5 })]
          ttl := 10
          configs := [{ AuthType := "Social", RefreshToken := "rtA", ClientID := "",
                        ClientSecret := "", Disabled := false }]
          configOrder := [0]
          currentIndex := 0
          exhausted := []
          lastRefresh := 0 }).1 =
      Except.ok ({ Token := { AccessToken := "atA", ExpiresAt := 1000 }
                   UsageInfo := none
                   CachedAt := 45
                   LastUsed := 0
                   Available := 5 } : CachedToken).Token
    ∧ lookupToken
        (getBestToken
          { now := 50
            refreshSingleToken := fun _ => Except.error "down"
            CheckUsageLimits := fun _ => Except.error "down" }
          { tokens := [(0, { Token := { AccessToken := "atA", ExpiresAt := 1000 }
                             UsageInfo := none
                             CachedAt := 45
                             LastUsed := 0
                             Available := 5 })]
            ttl := 10
            configs := [{ AuthType := "Social", RefreshToken := "rtA", ClientID := "",
                          ClientSecret := "", Disabled := false }]
            configOrder := [0]
            currentIndex := 0
            exhausted := []
            lastRefresh := 0 }).2.tokens 0 =
      some { Token := { AccessToken := "atA", ExpiresAt := 1000 }
             UsageInfo := none
             CachedAt := 45
             LastUsed := 50
             Available := 5 - 1 }
    ∧ (-1 : Rat) < (5 : Rat) - 1 := by
  have h := C4_decrement_spec
      { now := 50
        refreshSingleToken := fun _ => Except.error "down"
        CheckUsageLimits := fun _ => Except.error "down" }
      { tokens := [(0, { Token := { AccessToken := "atA", ExpiresAt := 1000 }
                         UsageInfo := none
                         CachedAt := 45
                         LastUsed := 0
                         Available := 5 })]
        ttl := 10
        configs := [{ AuthType := "Social", RefreshToken := "rtA", ClientID := "",
                      ClientSecret := "", Disabled := false }]
        configOrder := [0]
        currentIndex := 0
        exhausted := []
        lastRefresh := 0 } 0
      { Token := { AccessToken := "atA", ExpiresAt := 1000 }
        UsageInfo := none
        CachedAt := 45
        LastUsed := 0
        Available := 5 }
      { tokens := [(0, { Token := { AccessToken := "atA", ExpiresAt := 1000 }
                         UsageInfo := none
                         CachedAt := 45
                         LastUsed := 0
                         Available := 5 })]
        ttl := 10
        configs := [{ AuthType := "Social", RefreshToken := "rtA", ClientID := "",
                      ClientSecret := "", Disabled := false }]
        configOrder := [0]
        currentIndex := 0
        exhausted := []
        lastRefresh := 0 } [0] (by rfl)
  exact h

/-! ### C5: sticky selection -/

/-- C5 (corrected): when the rotation-order entry at the cursor exists,
is WITHIN ITS CACHE TTL, is usable, and has `Available > 1`, the call
selects exactly that entry, does not advance the cursor, does not touch
the exhausted set, and triggers no refresh — the result is the same for
any oracle environment with the same clock, and the only state change is
the selected entry's `LastUsed`/`Available` update, which leaves it
usable so consecutive calls keep selecting the same credential.  The
original claim omits the TTL condition: a usable but stale entry does
trigger a refresh, which on failure advances the cursor (see the
counterexample). -/
theorem C5_sticky_selection (env : RefreshEnv) (tm : TokenManager)
    (entry : CachedToken)
    (hidx : tm.currentIndex < tm.configOrder.length)
    (hord : tm.configOrder = generateConfigOrder tm.configs)
    (hl : lookupToken tm.tokens tm.currentIndex = some entry)
    (hfresh : env.now - entry.CachedAt ≤ tm.ttl)
    (hu : entry.IsUsable env.now = true)
    (havail : 1 < entry.Available) :
    selectBestTokenUnlocked env tm = (some (tm.currentIndex, entry), tm, [tm.currentIndex])
    ∧ (getBestToken env tm).1 = Except.ok entry.Token
    ∧ (getBestToken env tm).2.currentIndex = tm.currentIndex
    ∧ (getBestToken env tm).2.exhausted = tm.exhausted
    ∧ (getBestToken env tm).2.configs = tm.configs
    ∧ (getBestToken env tm).2.configOrder = tm.configOrder
    ∧ (getBestToken env tm).2.tokens = insertToken tm.tokens tm.currentIndex ⟨entry.Token, entry.UsageInfo, entry.CachedAt, env.now, entry.Available - 1⟩
    ∧ (∀ env2 : RefreshEnv, env2.now = env.now → getBestToken env2 tm = getBestToken env tm)
    ∧ CachedToken.IsUsable ⟨entry.Token, entry.UsageInfo, entry.CachedAt, env.now, entry.Available - 1⟩ env.now = true := by
  have hlen : tm.configOrder.length = tm.configs.length := by
    rw [hord, generateConfigOrder_eq_range, List.length_range]
  have hKey : tm.configOrder.getD tm.currentIndex 0 = tm.currentIndex := by
    rw [hord, generateConfigOrder_eq_range]
    exact range_getD _ _ (by omega)
  have hpos : 0 < entry.Available := by linarith
  have hnexp : ¬ entry.Token.ExpiresAt < env.now := by
    intro hlt
    unfold CachedToken.IsUsable at hu
    rw [if_pos hlt] at hu
    cases hu
  have hstep : ∀ env2 : RefreshEnv, env2.now = env.now →
      selectStep env2 tm = (some (tm.currentIndex, entry), tm) := by
    intro env2 hnow
    unfold selectStep
    dsimp only
    rw [hKey, hl]
    dsimp only
    rw [hnow]
    rw [if_neg (by omega)]
    have hu2 : entry.IsUsable env.now = true := hu
    rw [if_pos hu2]
  have hloopfuel : ∀ env2 : RefreshEnv, env2.now = env.now →
      selectLoop env2 tm tm.configOrder.length =
        (some (tm.currentIndex, entry), tm, [tm.currentIndex]) := by
    intro env2 hnow
    obtain ⟨m, hm⟩ : ∃ m, tm.configOrder.length = m + 1 :=
      ⟨tm.configOrder.length - 1, by omega⟩
    rw [hm]
    unfold selectLoop
    rw [hstep env2 hnow]
    dsimp only
    rw [hKey]
  have hselB : ∀ env2 : RefreshEnv, env2.now = env.now →
      selectBestTokenUnlocked env2 tm =
        (some (tm.currentIndex, entry), tm, [tm.currentIndex]) := by
    intro env2 hnow
    unfold selectBestTokenUnlocked
    rw [if_neg (by omega)]
    exact hloopfuel env2 hnow
  have hget : ∀ env2 : RefreshEnv, env2.now = env.now →
      getBestToken env2 tm =
        (Except.ok entry.Token, { tm with tokens := insertToken tm.tokens tm.currentIndex ⟨entry.Token, entry.UsageInfo, entry.CachedAt, env.now, entry.Available - 1⟩ }) := by
    intro env2 hnow
    unfold getBestToken
    rw [hselB env2 hnow]
    dsimp only
    rw [hnow, if_pos hpos]
  refine ⟨hselB env rfl, ?_, ?_, ?_, ?_, ?_, ?_, ?_, ?_⟩
  · rw [hget env rfl]
  · rw [hget env rfl]
  · rw [hget env rfl]
  · rw [hget env rfl]
  · rw [hget env rfl]
  · rw [hget env rfl]
  · intro env2 hnow
    rw [hget env2 hnow, hget env rfl]
  · unfold CachedToken.IsUsable
    dsimp only
    rw [if_neg hnexp]
    exact decide_eq_true (by linarith)

/-- C5 witness: one enabled config with a fresh usable entry
(`Available = 5`) at the cursor: the call selects it and the cursor and
exhausted set are unchanged. -/
theorem C5_witness :
    selectBestTokenUnlocked
        { now := 50
          refreshSingleToken := fun _ => Except.error "down"
          CheckUsageLimits := fun _ => Except.error "down" }
        { tokens := [(0, { Token := { AccessToken := "atA", ExpiresAt := 1000 }
                           UsageInfo := none
                           CachedAt := 45
                           LastUsed := 0
                           Available := 5 })]
          ttl := 10
          configs := [{ AuthType := "Social", RefreshToken := "rtA", ClientID := "",
                        ClientSecret := "", Disabled := false }]
          configOrder := [0]
          currentIndex := 0
          exhausted := []
          lastRefresh := 0 } =
      (some (0, { Token := { AccessToken := "atA", ExpiresAt := 1000 }
                  UsageInfo := none
                  CachedAt := 45
                  LastUsed := 0
                  Available := 5 }),
        { tokens := [(0, { Token := { AccessToken := "atA", ExpiresAt := 1000 }
                           UsageInfo := none
                           CachedAt := 45
                           LastUsed := 0
                           Available := 5 })]
          ttl := 10
          configs := [{ AuthType := "Social", RefreshToken := "rtA", ClientID := "",
                        ClientSecret := "", Disabled := false }]
          configOrder := [0]
          currentIndex := 0
          exhausted := []
          lastRefresh := 0 }, [0])
    ∧ (getBestToken
        { now := 50
          refreshSingleToken := fun _ => Except.error "down"
          CheckUsageLimits := fun _ => Except.error "down" }
        { tokens := [(0, { Token := { AccessToken := "atA", ExpiresAt := 1000 }
                           UsageInfo := none
                           CachedAt := 45
                           LastUsed := 0
                           Available := 5 })]
          ttl := 10
          configs := [{ AuthType := "Social", RefreshToken := "rtA", ClientID := "",
                        ClientSecret := "", Disabled := false }]
          configOrder := [0]
          currentIndex := 0
          exhausted := []
          lastRefresh := 0 }).2.currentIndex = 0 := by
  have h := C5_sticky_selection
      { now := 50
        refreshSingleToken := fun _ => Except.error "down"
        CheckUsageLimits := fun _ => Except.error "down" }
      { tokens := [(0, { Token := { AccessToken := "atA", ExpiresAt := 1000 }
                         UsageInfo := none
                         CachedAt := 45
                         LastUsed := 0
                         Available := 5 })]
        ttl := 10
        configs := [{ AuthType := "Social", RefreshToken := "rtA", ClientID := "",
                      ClientSecret := "", Disabled := false }]
        configOrder := [0]
        currentIndex := 0
        exhausted := []
        lastRefresh := 0 }
      { Token := { AccessToken := "atA", ExpiresAt := 1000 }
        UsageInfo := none
        CachedAt := 45
        LastUsed := 0
        Available := 5 }
      (by decide) (by rfl) (by rfl) (by decide) (by decide) (by norm_num)
  exact ⟨h.1, h.2.2.1⟩

/-- C5 counterexample: the entry at the cursor is usable with
`Available = 5 > 1` but STALE (cache age 100 > TTL 10): the call
triggers a refresh for it, which fails, so the key is marked exhausted,
the cursor advances, and the other credential's token is returned —
refuting "selects that entry, does not advance the cursor, and does not
trigger any refresh" as stated without a freshness condition. -/
theorem C5_counterexample :
    CachedToken.IsUsable
      { Token := { AccessToken := "atA", ExpiresAt := 1000 }
        UsageInfo := none
        CachedAt := 0
        LastUsed := 0
        Available := 5 } 100 = true
    ∧ (1 : Rat) < 5
    ∧ (getBestToken
        { now := 100
          refreshSingleToken := fun _ => Except.error "down"
          CheckUsageLimits := fun _ => Except.error "down" }
        { tokens := [(0, { Token := { AccessToken := "atA", ExpiresAt := 1000 }
                           UsageInfo := none
                           CachedAt := 0
                           LastUsed := 0
                           Available := 5 }),
                     (1, { Token := { AccessToken := "atB", ExpiresAt := 1000 }
                           UsageInfo := none
                           CachedAt := 95
                           LastUsed := 0
                           Available := 3 })]
          ttl := 10
          configs := [{ AuthType := "Social", RefreshToken := "rtA", ClientID := "",
                        ClientSecret := "", Disabled := false },
                      { AuthType := "Social", RefreshToken := "rtB", ClientID := "",
                        ClientSecret := "", Disabled := false }]
          configOrder := [0, 1]
          currentIndex := 0
          exhausted := []
          lastRefresh := 0 }).1 =
      Except.ok { AccessToken := "atB", ExpiresAt := 1000 }
    ∧ (getBestToken
        { now := 100
          refreshSingleToken := fun _ => Except.error "down"
          CheckUsageLimits := fun _ => Except.error "down" }
        { tokens := [(0, { Token := { AccessToken := "atA", ExpiresAt := 1000 }
                           UsageInfo := none
                           CachedAt := 0
                           LastUsed := 0
                           Available := 5 }),
                     (1, { Token := { AccessToken := "atB", ExpiresAt := 1000 }
                           UsageInfo := none
                           CachedAt := 95
                           LastUsed := 0
                           Available := 3 })]
          ttl := 10
          configs := [{ AuthType := "Social", RefreshToken := "rtA", ClientID := "",
                        ClientSecret := "", Disabled := false },
                      { AuthType := "Social", RefreshToken := "rtB", ClientID := "",
                        ClientSecret := "", Disabled := false }]
          configOrder := [0, 1]
          currentIndex := 0
          exhausted := []
          lastRefresh := 0 }).2.currentIndex = 1
    ∧ (getBestToken
        { now := 100
          refreshSingleToken := fun _ => Except.error "down"
          CheckUsageLimits := fun _ => Except.error "down" }
        { tokens := [(0, { Token := { AccessToken := "atA", ExpiresAt := 1000 }
                           UsageInfo := none
                           CachedAt := 0
                           LastUsed := 0
                           Available := 5 }),
                     (1, { Token := { AccessToken := "atB", ExpiresAt := 1000 }
                           UsageInfo := none
                           CachedAt := 95
                           LastUsed := 0
                           Available := 3 })]
          ttl := 10
          configs := [{ AuthType := "Social", RefreshToken := "rtA", ClientID := "",
                        ClientSecret := "", Disabled := false },
                      { AuthType := "Social", RefreshToken := "rtB", ClientID := "",
                        ClientSecret := "", Disabled := false }]
          configOrder := [0, 1]
          currentIndex := 0
          exhausted := []
          lastRefresh := 0 }).2.exhausted = [0] := by
  refine ⟨by decide, by norm_num, rfl, rfl, rfl⟩

/-! ### Characterizing the full refresh pass -/

theorem refreshIndices_frame (env : RefreshEnv) :
    ∀ (l : List Nat) (tm : TokenManager),
      (refreshIndices env tm l).ttl = tm.ttl
      ∧ (refreshIndices env tm l).configs = tm.configs
      ∧ (refreshIndices env tm l).configOrder = tm.configOrder
      ∧ (refreshIndices env tm l).currentIndex = tm.currentIndex
      ∧ (refreshIndices env tm l).exhausted = tm.exhausted
      ∧ (refreshIndices env tm l).lastRefresh = tm.lastRefresh := by
  intro l
  induction l with
  | nil =>
    intro tm
    exact ⟨rfl, rfl, rfl, rfl, rfl, rfl⟩
  | cons i rest ih =>
    intro tm
    unfold refreshIndices
    cases hr : refreshSingleTokenByIndex env tm i with
    | ok tm1 =>
      obtain ⟨f1, f2, f3, f4, f5, f6, -⟩ :=
        refreshSingleTokenByIndex_ok env tm i tm1 hr
      obtain ⟨g1, g2, g3, g4, g5, g6⟩ := ih tm1
      exact ⟨g1.trans f1, g2.trans f2, g3.trans f3, g4.trans f4,
        g5.trans f5, g6.trans f6⟩
    | error e => exact ih tm

theorem refreshIndices_lookup (env : RefreshEnv) :
    ∀ (l : List Nat) (tm : TokenManager) (k : Nat),
      lookupToken (refreshIndices env tm l).tokens k =
        if k ∈ l then
          match tm.configs[k]? with
          | some cfg =>
            match refreshOutcome env cfg with
            | some entry => some entry
            | none => lookupToken tm.tokens k
          | none => lookupToken tm.tokens k
        else lookupToken tm.tokens k := by
  intro l
  induction l with
  | nil =>
    intro tm k
    simp [refreshIndices]
  | cons i rest ih =>
    intro tm k
    unfold refreshIndices
    cases hr : refreshSingleTokenByIndex env tm i with
    | ok tm1 =>
      dsimp only
      obtain ⟨-, f2, -, -, -, -, cfg, entry, hcfg, hdis, hout, htoks⟩ :=
        refreshSingleTokenByIndex_ok env tm i tm1 hr
      rw [ih tm1 k, f2]
      by_cases hk : k = i
      · subst hk
        have hl1 : lookupToken tm1.tokens k = some entry := by
          rw [htoks]
          exact lookupToken_insertToken_self _ _ _
        rw [hcfg]
        dsimp only
        rw [hout, hl1, if_pos (List.mem_cons_self k rest)]
        dsimp only
        split
        · rfl
        · rfl
      · have hl1 : lookupToken tm1.tokens k = lookupToken tm.tokens k := by
          rw [htoks]
          exact lookupToken_insertToken_ne _ _ _ _ hk
        rw [hl1]
        by_cases hmem : k ∈ rest
        · rw [if_pos hmem, if_pos (List.mem_cons_of_mem i hmem)]
        · rw [if_neg hmem, if_neg (by
            intro hx
            rcases List.mem_cons.mp hx with h1 | h2
            · exact hk h1
            · exact hmem h2)]
    | error e =>
      dsimp only
      have herr := refreshSingleTokenByIndex_error_spec env tm i e hr
      rw [ih tm k]
      by_cases hk : k = i
      · subst hk
        rcases herr with hnone | ⟨cfg, hcfg, hout⟩
        · rw [hnone, if_pos (List.mem_cons_self k rest)]
          dsimp only
          split
          · rfl
          · rfl
        · rw [hcfg]
          dsimp only
          rw [hout, if_pos (List.mem_cons_self k rest)]
          dsimp only
          split
          · rfl
          · rfl
      · by_cases hmem : k ∈ rest
        · rw [if_pos hmem, if_pos (List.mem_cons_of_mem i hmem)]
        · rw [if_neg hmem, if_neg (by
            intro hx
            rcases List.mem_cons.mp hx with h1 | h2
            · exact hk h1
            · exact hmem h2)]

theorem refreshCacheUnlocked_spec (env : RefreshEnv) (tm : TokenManager) :
    (refreshCacheUnlocked env tm).ttl = tm.ttl
    ∧ (refreshCacheUnlocked env tm).configs = tm.configs
    ∧ (refreshCacheUnlocked env tm).configOrder = tm.configOrder
    ∧ (refreshCacheUnlocked env tm).currentIndex = tm.currentIndex
    ∧ (refreshCacheUnlocked env tm).exhausted = tm.exhausted
    ∧ (refreshCacheUnlocked env tm).lastRefresh = env.now
    ∧ ∀ i cfg, tm.configs[i]? = some cfg →
        lookupToken (refreshCacheUnlocked env tm).tokens i =
          match refreshOutcome env cfg with
          | some entry => some entry
          | none => lookupToken tm.tokens i := by
  obtain ⟨g1, g2, g3, g4, g5, g6⟩ :=
    refreshIndices_frame env (List.range tm.configs.length) tm
  refine ⟨g1, g2, g3, g4, g5, rfl, ?_⟩
  intro i cfg hcfg
  have hi : i < tm.configs.length := by
    by_contra hge
    rw [List.getElem?_eq_none (by omega)] at hcfg
    cases hcfg
  have hlk : lookupToken (refreshCacheUnlocked env tm).tokens i =
      lookupToken (refreshIndices env tm (List.range tm.configs.length)).tokens i := rfl
  rw [hlk, refreshIndices_lookup env (List.range tm.configs.length) tm i,
    if_pos (List.mem_range.mpr hi), hcfg]

/-! ### C8: hot add -/

/-- C8: `AddAccountsFromCSV` with successfully loaded rows appends
exactly those configs at the end of the credential list, regenerates the
rotation order to the combined length with every pre-existing key
unchanged at its position, leaves the cursor and the exhausted set
unchanged, and synchronously refreshes every credential index before
returning: the call returns success even when individual refreshes fail,
and each index's final cache slot holds its refresh outcome when the
attempt succeeded and its previous contents when it failed. -/
theorem C8_addAccounts_spec (env : RefreshEnv) (tm : TokenManager)
    (records : List (List String)) (newConfigs : List AuthConfig)
    (hord : tm.configOrder = generateConfigOrder tm.configs)
    (hload : LoadAccountsFromCSV records = Except.ok newConfigs) :
    ∃ tm2, AddAccountsFromCSV env tm records = Except.ok tm2
      ∧ tm2.configs = tm.configs ++ newConfigs
      ∧ tm2.configOrder.length = tm.configOrder.length + newConfigs.length
      ∧ (∀ i, i < tm.configOrder.length → tm2.configOrder[i]? = tm.configOrder[i]?)
      ∧ tm2.currentIndex = tm.currentIndex
      ∧ tm2.exhausted = tm.exhausted
      ∧ tm2.ttl = tm.ttl
      ∧ tm2.lastRefresh = env.now
      ∧ (∀ i cfg, (tm.configs ++ newConfigs)[i]? = some cfg →
          lookupToken tm2.tokens i =
            match refreshOutcome env cfg with
            | some entry => some entry
            | none => lookupToken tm.tokens i) := by
  have hlen : tm.configOrder.length = tm.configs.length := by
    rw [hord, generateConfigOrder_eq_range, List.length_range]
  obtain ⟨r1, r2, r3, r4, r5, r6, r7⟩ := refreshCacheUnlocked_spec env
    { tm with configs := tm.configs ++ newConfigs
              configOrder := generateConfigOrder (tm.configs ++ newConfigs) }
  refine ⟨refreshCacheUnlocked env
    { tm with configs := tm.configs ++ newConfigs
              configOrder := generateConfigOrder (tm.configs ++ newConfigs) },
    ?_, r2, ?_, ?_, r4, r5, r1, r6, ?_⟩
  · unfold AddAccountsFromCSV
    rw [hload]
  · rw [r3]
    have e1 : ({ tm with configs := tm.configs ++ newConfigs
                         configOrder := generateConfigOrder (tm.configs ++ newConfigs) }
        : TokenManager).configOrder =
        generateConfigOrder (tm.configs ++ newConfigs) := rfl
    rw [e1, generateConfigOrder_eq_range, List.length_range, List.length_append, hlen]
  · intro i hi
    rw [r3]
    have e1 : ({ tm with configs := tm.configs ++ newConfigs
                         configOrder := generateConfigOrder (tm.configs ++ newConfigs) }
        : TokenManager).configOrder =
        generateConfigOrder (tm.configs ++ newConfigs) := rfl
    rw [e1, generateConfigOrder_eq_range, hord, generateConfigOrder_eq_range]
    have hi1 : i < tm.configs.length := by omega
    have hi2 : i < (tm.configs ++ newConfigs).length := by
      rw [List.length_append]
      omega
    rw [List.getElem?_range hi1, List.getElem?_range hi2]
  · intro i cfg hcfg
    have e2 : ({ tm with configs := tm.configs ++ newConfigs
                         configOrder := generateConfigOrder (tm.configs ++ newConfigs) }
        : TokenManager).configs = tm.configs ++ newConfigs := rfl
    have := r7 i cfg (by rw [e2]; exact hcfg)
    rw [this]

/-- C8 witness: one existing config, a CSV with two valid rows, an
oracle whose usage check fails: the hot add succeeds, appends both
configs, and refreshes all three indices. -/
theorem C8_witness :
    ∃ tm2, AddAccountsFromCSV
        { now := 7
          refreshSingleToken := fun _ => Except.ok { AccessToken := "at", ExpiresAt := 50 }
          CheckUsageLimits := fun _ => Except.error "usage down" }
        (NewTokenManager 10
          [{ AuthType := "Social", RefreshToken := "rtA", ClientID := "",
             ClientSecret := "", Disabled := false }])
        [["h1", "h2", "h3", "h4"],
         ["true", "rt1", "cid1", "cs1"],
         ["true", "rt2", "cid2", "cs2"]] = Except.ok tm2
      ∧ tm2.configs = (NewTokenManager 10
          [{ AuthType := "Social", RefreshToken := "rtA", ClientID := "",
             ClientSecret := "", Disabled := false }]).configs ++
          [{ AuthType := "IdC", RefreshToken := "rt1", ClientID := "cid1",
             ClientSecret := "cs1", Disabled := false },
           { AuthType := "IdC", RefreshToken := "rt2", ClientID := "cid2",
             ClientSecret := "cs2", Disabled := false }]
      ∧ tm2.configOrder.length = (NewTokenManager 10
          [{ AuthType := "Social", RefreshToken := "rtA", ClientID := "",
             ClientSecret := "", Disabled := false }]).configOrder.length +
          ([{ AuthType := "IdC", RefreshToken := "rt1", ClientID := "cid1",
              ClientSecret := "cs1", Disabled := false },
            { AuthType := "IdC", RefreshToken := "rt2", ClientID := "cid2",
              ClientSecret := "cs2", Disabled := false }] : List AuthConfig).length
      ∧ (∀ i, i < (NewTokenManager 10
          [{ AuthType := "Social", RefreshToken := "rtA", ClientID := "",
             ClientSecret := "", Disabled := false }]).configOrder.length →
          tm2.configOrder[i]? = (NewTokenManager 10
            [{ AuthType := "Social", RefreshToken := "rtA", ClientID := "",
               ClientSecret := "", Disabled := false }]).configOrder[i]?)
      ∧ tm2.currentIndex = (NewTokenManager 10
          [{ AuthType := "Social", RefreshToken := "rtA", ClientID := "",
             ClientSecret := "", Disabled := false }]).currentIndex
      ∧ tm2.exhausted = (NewTokenManager 10
          [{ AuthType := "Social", RefreshToken := "rtA", ClientID := "",
             ClientSecret := "", Disabled := false }]).exhausted
      ∧ tm2.ttl = (NewTokenManager 10
          [{ AuthType := "Social", RefreshToken := "rtA", ClientID := "",
             ClientSecret := "", Disabled := false }]).ttl
      ∧ tm2.lastRefresh = 7
      ∧ (∀ i cfg, ((NewTokenManager 10
            [{ AuthType := "Social", RefreshToken := "rtA", ClientID := "",
               ClientSecret := "", Disabled := false }]).configs ++
            [{ AuthType := "IdC", RefreshToken := "rt1", ClientID := "cid1",
               ClientSecret := "cs1", Disabled := false },
             { AuthType := "IdC", RefreshToken := "rt2", ClientID := "cid2",
               ClientSecret := "cs2", Disabled := false }])[i]? = some cfg →
          lookupToken tm2.tokens i =
            match refreshOutcome
              { now := 7
                refreshSingleToken := fun _ => Except.ok { AccessToken := "at", ExpiresAt := 50 }
                CheckUsageLimits := fun _ => Except.error "usage down" } cfg with
            | some entry => some entry
            | none => lookupToken (NewTokenManager 10
                [{ AuthType := "Social", RefreshToken := "rtA", ClientID := "",
                   ClientSecret := "", Disabled := false }]).tokens i) :=
  C8_addAccounts_spec
    { now := 7
      refreshSingleToken := fun _ => Except.ok { AccessToken := "at", ExpiresAt := 50 }
      CheckUsageLimits := fun _ => Except.error "usage down" }
    (NewTokenManager 10
      [{ AuthType := "Social", RefreshToken := "rtA", ClientID := "",
         ClientSecret := "", Disabled := false }])
    [["h1", "h2", "h3", "h4"],
     ["true", "rt1", "cid1", "cs1"],
     ["true", "rt2", "cid2", "cs2"]]
    [{ AuthType := "IdC", RefreshToken := "rt1", ClientID := "cid1",
       ClientSecret := "cs1", Disabled := false },
     { AuthType := "IdC", RefreshToken := "rt2", ClientID := "cid2",
       ClientSecret := "cs2", Disabled := false }]
    (by rfl) (by rfl)
